import Mathlib

/-!
# The menu layer of the emulator front-end (`source/switch/ui.cpp`)

A shallow embedding of the file's global state and of its functions, followed by
theorems about list navigation, the state stack, the settings model and the file
browser.

Conventions of the embedding

* A C string is the list of its bytes before the terminating NUL (`CStr`).
* `int` variables are `Int`; counters that the code only ever increments from 0 or
  decrements behind a `> 0` guard are `Nat`.  `u32` values are `Nat` with every
  arithmetic step reduced modulo `2 ^ 32`.
* The `u32*` bindings of settings are addresses into `UI.mem`; `none` is `NULL`.
* Drawing, logging and the clock only produce output and are left out.
* Reads that are undefined in C (an index outside the registered entries, a load
  through `NULL`) return a fixed default, named at each place.  A default describes no
  C execution: the predicates `stringReadDefined`, `loadRoundDefined` and
  `saveReadDefined`, and the hypotheses that an entry read exists, say when a function
  of the embedding describes the C function.
-/

namespace VbaUi

/-- Bytes of a NUL-terminated C string, terminator excluded. -/
abbrev CStr := List Char

/-- Modelled from the spec: the `UIState` enum of ui.h (the header is not part of the
sources); §4.4 lists the states `FileSelect`, `Settings`, `Paused`, `RemapButtons`
and `Running`. -/
inductive UIState where
  | stateFileselect
  | stateSettings
  | statePaused
  | stateRemapButtons
  | stateRunning
  deriving DecidableEq

/-- Constants and collaborators that `ui.cpp` takes from headers outside the sources:
the key masks of `switch.h`, `PATH_LENGTH` of util.h, the enumerators of `UIResult`
of ui.h (a frame result is the enumerator's integer value), and the two file-system
routines of util.h. -/
structure Env where
  KEY_A : Nat
  KEY_B : Nat
  KEY_X : Nat
  KEY_UP : Nat
  KEY_DOWN : Nat
  KEY_LEFT : Nat
  KEY_RIGHT : Nat
  PATH_LENGTH : Nat
  resultSelectedFile : Nat
  resultClose : Nat
  resultUnpause : Nat
  resultExit : Nat
  resultNone : Nat
  resultLoadState : Nat
  resultSaveState : Nat
  resultSettingsChanged : Nat
  /-- Function `isDirectory(path)`. -/
  isDirectory : CStr → Bool
  /-- Function `getDirectoryContents`: the entry names found for a directory, given the
  capacity passed in through `*filenamesCount`. -/
  getDirectoryContents : Nat → CStr → List CStr

/-- Record `struct Setting`. -/
structure Setting where
  name : CStr
  valuesCount : Nat
  valueIdx : Option Nat
  strValues : List CStr
  generatedString : CStr
  meta : Bool

/-- One line of the settings file. -/
inductive IniLine where
  | header (name : CStr)
  | keyValue (key : CStr) (value : Int)
  deriving DecidableEq

/-- Content of the settings file `vba-switch.ini`, line by line. -/
abbrev IniFile := List IniLine

def FILENAMES_COUNT_MAX : Nat := 2048

def SETTINGS_MAX : Nat := 128

def UI_STATESTACK_MAX : Nat := 4

def UINT32_MAX : Nat := 4294967295

/-- The file-scope variables of `ui.cpp`, the `u32` slots the settings point to, and
the settings file.  `filenames` holds the entries `[0, filenamesCount)`, `settings`
the entries `[0, settingsCount)`; `settingStrings[i]` is
`settings[i].generatedString`. -/
structure UI where
  filenames : List CStr
  selectedPath : CStr
  currentDirectory : CStr
  cursor : Int
  scroll : Int
  settings : List Setting
  settingsMetaStart : Nat
  settingsChanged : Bool
  uiStateStack : Nat → UIState
  uiStateStackCount : Nat
  statusMessageFadeout : Int
  mem : Nat → Nat
  iniFile : Option IniFile

/-! ## String helpers -/

/-- Library `snprintf(dst, size, ...)` applied to the already formatted text: at most
`size - 1` bytes are stored. -/
def snprintf (size : Nat) (text : CStr) : CStr := text.take (size - 1)

/-- Modelled from the spec: `strcpy_safe(dst, src, n)` of util.h is not part of the
sources; it is the bounded copy its call sites rely on (`n` is always the size of
`dst`): the first `n - 1` bytes of `src`, NUL-terminated. -/
def strcpy_safe (src : CStr) (n : Nat) : CStr := src.take (n - 1)

/-- Element `a[i]` of a C array indexed by an `int`; outside the known entries the
read is undefined in C and `none` here. -/
def atIndex {α : Type} (a : List α) (i : Int) : Option α :=
  if i < 0 then none else a[i.toNat]?

/-- Load `*p` of a `u32`; a load through `NULL` is undefined in C and `0` here. -/
def deref (mem : Nat → Nat) : Option Nat → Nat
  | some p => mem p
  | none => 0

/-- Store `*p = v`; a store through `NULL` is undefined in C and dropped here. -/
def poke (mem : Nat → Nat) : Option Nat → Nat → Nat → Nat
  | some p, v => Function.update mem p v
  | none, _ => mem

/-! ## Settings -/

/-- The text `generateSettingString` puts into `generatedString` for one setting.  For a
normal setting the C function reads `strValues[*valueIdx]`: with a NULL `valueIdx` or a
value index outside `strValues` that read is undefined in C; here the value index is
`0` for NULL and the string is empty outside `strValues`.  `stringReadDefined` tells
when the read is defined. -/
def settingText (mem : Nat → Nat) (s : Setting) : CStr :=
  if !s.meta then
    snprintf (256 - 1) (s.name ++ ": ".toList ++ s.strValues.getD (deref mem s.valueIdx) [])
  else
    strcpy_safe s.name 256

/-- Function `generateSettingString(idx)`. -/
def generateSettingString (idx : Nat) (st : UI) : UI :=
  match st.settings[idx]? with
  | none => st
  | some s =>
    { st with settings := st.settings.set idx { s with generatedString := settingText st.mem s } }

/-- The five field assignments of `uiAddSetting`; the string buffer is not yet
written. -/
def newEntry (name : CStr) (valueIdx : Option Nat) (valuesCount : Nat)
    (strValues : List CStr) (isMeta : Bool) : Setting :=
  { name := name, valuesCount := valuesCount, valueIdx := valueIdx,
    strValues := strValues, generatedString := [], meta := isMeta }

/-- Function `uiAddSetting`: fill entry `settingsCount`, generate its string, count it.
The C array has room for `SETTINGS_MAX` entries and the function does not check it; a
registration beyond that is undefined in C, while the list here just grows. -/
def uiAddSetting (name : CStr) (valueIdx : Option Nat) (valuesCount : Nat)
    (strValues : List CStr) (isMeta : Bool) (st : UI) : UI :=
  generateSettingString st.settings.length
    { st with settings := st.settings ++ [newEntry name valueIdx valuesCount strValues isMeta] }

/-- Modelled from the spec: `ini_sget(cfg, "misc", key, "%d", dst)` of ini/ini.h (not part
of the sources) as the load-by-key of §6: the store has one section, so every
`key=value` line counts as belonging to the section asked for, and the first line whose
key is `key` supplies the integer; `none` is the return value 0 (key missing). -/
def ini_sget : IniFile → CStr → Option Int
  | [], _ => none
  | IniLine.header _ :: rest, key => ini_sget rest key
  | IniLine.keyValue k v :: rest, key => if k = key then some v else ini_sget rest key

def LONG_MIN : Int := -9223372036854775808

def LONG_MAX : Int := 9223372036854775807

/-- The `u32` that the `%d` of `sscanf` stores through a `u32*` for the scanned integer:
the C library converts the digits as a `long`, which saturates at `LONG_MIN` and
`LONG_MAX`, and the low 32 bits of that `long` are stored. -/
def scanU32 (v : Int) : Nat := ((max LONG_MIN (min v LONG_MAX)) % 4294967296).toNat

/-- The integer that `%d` prints for a `u32` argument. -/
def printInt (v : Nat) : Int :=
  if v % 4294967296 < 2147483648 then ((v % 4294967296 : Nat) : Int)
  else ((v % 4294967296 : Nat) : Int) - 4294967296

/-- Body of the load loop of `uiFinaliseAndLoadSettings` for index `i`. -/
def loadSetting (cfg : IniFile) (st : UI) (i : Nat) : UI :=
  match st.settings[i]? with
  | none => st
  | some s =>
    match ini_sget cfg s.name with
    | none => st
    | some v => generateSettingString i { st with mem := poke st.mem s.valueIdx (scanU32 v) }

/-- The load loop `for (int i = 0; i < k; i++)` of `uiFinaliseAndLoadSettings`. -/
def loadAll (cfg : IniFile) (k : Nat) (st : UI) : UI :=
  (List.range k).foldl (loadSetting cfg) st

/-- The first two statements of `uiFinaliseAndLoadSettings`: fix `settingsMetaStart`,
register the "Exit" entry. -/
def metaBoundary (E : Env) (st : UI) : UI :=
  uiAddSetting "Exit".toList none E.resultClose [] true
    { st with settingsMetaStart := st.settings.length }

/-- Function `uiFinaliseAndLoadSettings`; `iniFile = none` is `ini_load` returning
`NULL`. -/
def uiFinaliseAndLoadSettings (E : Env) (st : UI) : UI :=
  let st2 := metaBoundary E st
  match st2.iniFile with
  | none => st2
  | some cfg => loadAll cfg st2.settingsMetaStart st2

/-- The line `fprintf(f, "%s=%d\n", name, *valueIdx)` of one setting. -/
def settingLine (mem : Nat → Nat) (s : Setting) : IniLine :=
  IniLine.keyValue s.name (printInt (deref mem s.valueIdx))

/-- Function `uiSaveSettings`; `fopenOk` tells whether `fopen(settingsPath, "wt")`
succeeds. -/
def uiSaveSettings (fopenOk : Bool) (st : UI) : UI :=
  if st.settingsChanged then
    if fopenOk then
      { st with iniFile := some (IniLine.header "Misc".toList ::
          (List.range st.settingsMetaStart).filterMap
            (fun i => (st.settings[i]?).map (settingLine st.mem))) }
    else st
  else st

/-- Function `uiGetSelectedFile(out, outLength)`: the content of `out` afterwards. -/
def uiGetSelectedFile (outLength : Nat) (st : UI) : CStr := strcpy_safe st.selectedPath outLength

/-! ## State stack -/

/-- Function `uiPushState`. -/
def uiPushState (state : UIState) (st : UI) : UI :=
  let st1 :=
    if st.uiStateStackCount < UI_STATESTACK_MAX then
      { st with uiStateStack := Function.update st.uiStateStack st.uiStateStackCount state,
                uiStateStackCount := st.uiStateStackCount + 1 }
    else st
  { st1 with cursor := 0, scroll := 0 }

/-- Function `uiPopState`. -/
def uiPopState (st : UI) : UI :=
  let st1 :=
    if st.uiStateStackCount > 0 then { st with uiStateStackCount := st.uiStateStackCount - 1 }
    else st
  { st1 with cursor := 0, scroll := 0 }

/-- Function `uiGetState`. -/
def uiGetState (st : UI) : UIState :=
  if st.uiStateStackCount = 0 then UIState.stateFileselect
  else st.uiStateStack (st.uiStateStackCount - 1)

/-! ## Navigation -/

/-- Test `keysDown & mask`. -/
def pressed (keysDown mask : Nat) : Bool := keysDown &&& mask != 0

/-- The four assignments to `scrollAmount` at the top of `uiLoop`. -/
def scrollAmountOf (E : Env) (keysDown : Nat) : Int :=
  let a0 : Int := 0
  let a1 : Int := if pressed keysDown E.KEY_DOWN then 1 else a0
  let a2 : Int := if pressed keysDown E.KEY_UP then -1 else a1
  let a3 : Int := if pressed keysDown E.KEY_LEFT then -5 else a2
  if pressed keysDown E.KEY_RIGHT then 5 else a3

/-- Value of `menuItemsCount` for the state read at the top of `uiLoop`. -/
def menuItemsCount (state : UIState) (st : UI) : Int :=
  if state = UIState.stateSettings then (st.settings.length : Int)
  else if state = UIState.statePaused then 4
  else (st.filenames.length : Int)

/-- Body of the loop for `scrollAmount > 0`, on the pair `(cursor, scroll)`. -/
def cursorDown (menuItemsCount : Int) (p : Int × Int) : Int × Int :=
  if p.1 < menuItemsCount - 1 then
    if (p.1 + 1) - p.2 ≥ 60 then (p.1 + 1, p.2 + 1) else (p.1 + 1, p.2)
  else p

/-- Body of the loop for `scrollAmount < 0`, on the pair `(cursor, scroll)`. -/
def cursorUp (p : Int × Int) : Int × Int :=
  if p.1 > 0 then
    if (p.1 - 1) - p.2 < 0 then (p.1 - 1, p.2 - 1) else (p.1 - 1, p.2)
  else p

/-- The navigation step of `uiLoop`: the two `for` loops over `scrollAmount`. -/
def navigate (scrollAmount menuItemsCount : Int) (p : Int × Int) : Int × Int :=
  if scrollAmount > 0 then (cursorDown menuItemsCount)^[scrollAmount.toNat] p
  else if scrollAmount < 0 then cursorUp^[(-scrollAmount).toNat] p
  else p

/-- Navigation steps applied one frame after the other. -/
def navigateAll (menuItemsCount : Int) (deltas : List Int) (p : Int × Int) : Int × Int :=
  deltas.foldl (fun q d => navigate d menuItemsCount q) p

/-! ## File browser -/

/-- Function `enterDirectory`. -/
def enterDirectory (E : Env) (st : UI) : UI :=
  { st with filenames := E.getDirectoryContents FILENAMES_COUNT_MAX st.currentDirectory,
            cursor := 0, scroll := 0 }

/-- Function `uiInit`, without the allocations and image loads. -/
def uiInit (E : Env) (st : UI) : UI :=
  enterDirectory E { st with currentDirectory := strcpy_safe [] E.PATH_LENGTH }

/-- The backward search for `'/'` in `currentDirectory`: `n` is one more than the next
index to look at, the result is the content of `path` (initially empty) afterwards. -/
def parentSearch (dir : CStr) : Nat → CStr
  | 0 => []
  | n + 1 => if dir[n]? = some '/' then dir.take n else parentSearch dir n

/-- The tail of `uiLoop`: fade the status message, return `resultNone`. -/
def fadeOut (E : Env) (st : UI) : Nat × UI :=
  (E.resultNone,
    if st.statusMessageFadeout > 0 then
      { st with statusMessageFadeout := st.statusMessageFadeout - 4 }
    else st)

/-- The `stateFileselect` branch of the confirm/cancel handler.  `filenames[cursor]`
outside the listing is undefined in C (the `strcmp` on it crashes) and the empty name
here; the function describes the C branch only when `atIndex st1.filenames st1.cursor`
is `some entry`. -/
def selectFile (E : Env) (keysDown : Nat) (st : UI) : Nat × UI :=
  let st1 := if pressed keysDown E.KEY_B then { st with cursor := 0 } else st
  let entry := (atIndex st1.filenames st1.cursor).getD []
  let path :=
    if entry = "..".toList then parentSearch st1.currentDirectory st1.currentDirectory.length
    else snprintf E.PATH_LENGTH (st1.currentDirectory ++ "/".toList ++ entry)
  if E.isDirectory path then
    fadeOut E (enterDirectory E { st1 with currentDirectory := strcpy_safe path E.PATH_LENGTH })
  else
    (E.resultSelectedFile, { st1 with selectedPath := strcpy_safe path E.PATH_LENGTH })

/-- The new `*valueIdx` of a normal setting: `+= 1` or `+= -1` in `u32`, then the two
wrap-around tests. -/
def nextValue (confirm : Bool) (valuesCount v : Nat) : Nat :=
  let v1 := if confirm then (v + 1) % 4294967296 else (v + 4294967295) % 4294967296
  let v2 := if v1 = UINT32_MAX then (valuesCount + 4294967295) % 4294967296 else v1
  if v2 ≥ valuesCount then 0 else v2

/-- The `stateSettings` branch of the confirm/cancel handler.  `settings[cursor]`
outside the registered entries is undefined in C; here the frame then ends like one
without a selection. -/
def selectSetting (E : Env) (keysDown : Nat) (st : UI) : Nat × UI :=
  match atIndex st.settings st.cursor with
  | none => fadeOut E st
  | some setting =>
    if setting.meta then (setting.valuesCount, st)
    else
      let v := nextValue (pressed keysDown E.KEY_A) setting.valuesCount
        (deref st.mem setting.valueIdx)
      let st1 := generateSettingString st.cursor.toNat
        { st with mem := poke st.mem setting.valueIdx v }
      (E.resultSettingsChanged, { st1 with settingsChanged := true })

/-- The last branch of the confirm/cancel handler (pause menu). -/
def selectPaused (E : Env) (keysDown : Nat) (st : UI) : Nat × UI :=
  if pressed keysDown E.KEY_B then (E.resultUnpause, st)
  else if st.cursor = 0 then (E.resultUnpause, st)
  else if st.cursor = 1 then (E.resultLoadState, st)
  else if st.cursor = 2 then (E.resultSaveState, st)
  else if st.cursor = 3 then (E.resultClose, st)
  else fadeOut E st

/-- The navigation part of `uiLoop`: `scrollAmount` from the keys, the item count of the
active list, then the two loops on `cursor` and `scroll`. -/
def moveCursor (E : Env) (keysDown : Nat) (state : UIState) (st : UI) : UI :=
  let p := navigate (scrollAmountOf E keysDown) (menuItemsCount state st) (st.cursor, st.scroll)
  { st with cursor := p.1, scroll := p.2 }

/-- Function `uiLoop`: the returned `UIResult` and the state after the frame. -/
def uiLoop (E : Env) (keysDown : Nat) (st : UI) : Nat × UI :=
  let state := uiGetState st
  if state = UIState.stateRemapButtons then fadeOut E st
  else if state ≠ UIState.stateRunning then
    let st1 := moveCursor E keysDown state st
    if pressed keysDown E.KEY_X then (E.resultExit, st1)
    else if pressed keysDown E.KEY_A || pressed keysDown E.KEY_B then
      if state = UIState.stateFileselect then selectFile E keysDown st1
      else if state = UIState.stateSettings then selectSetting E keysDown st1
      else selectPaused E keysDown st1
    else fadeOut E st1
  else fadeOut E st

/-- The state after `n` frames of `uiLoop` with the same input in each. -/
def frames (E : Env) (keysDown : Nat) (n : Nat) (st : UI) : UI :=
  (fun s => (uiLoop E keysDown s).2)^[n] st

/-- The value index of setting `i`: `*settings[i].valueIdx`. -/
def valueOf (st : UI) (i : Nat) : Nat :=
  match st.settings[i]? with
  | some s => deref st.mem s.valueIdx
  | none => 0

/-! ## Reference model of the state stack -/

/-- One call made by the embedding application on the state stack. -/
inductive StackCall where
  | push (state : UIState)
  | pop

/-- Effect of one stack call on the program state. -/
def applyCall (st : UI) : StackCall → UI
  | StackCall.push state => uiPushState state st
  | StackCall.pop => uiPopState st

/-- Effect of a sequence of stack calls, first call first. -/
def applyCalls (calls : List StackCall) (st : UI) : UI := calls.foldl applyCall st

/-- The stack held in `uiStateStack[0 .. uiStateStackCount)`, bottom first. -/
def stackList (st : UI) : List UIState := (List.range st.uiStateStackCount).map st.uiStateStack

/-- Reference push, in the spec's words: pushing onto a full (depth-4) stack leaves it
unchanged, otherwise the state is appended. -/
def refPush (state : UIState) (l : List UIState) : List UIState :=
  if l.length < 4 then l ++ [state] else l

/-- Reference pop, in the spec's words: popping an empty stack leaves it empty,
otherwise the top is removed. -/
def refPop (l : List UIState) : List UIState := l.dropLast

/-- Reference query, in the spec's words: the top of the stack is the active state, and
an empty stack degrades to `FileSelect`. -/
def refTop (l : List UIState) : UIState := l.getLast?.getD UIState.stateFileselect

/-- Effect of one stack call on the reference list. -/
def refCall (l : List UIState) : StackCall → List UIState
  | StackCall.push state => refPush state l
  | StackCall.pop => refPop l

/-- Effect of a sequence of stack calls on the reference list. -/
def refCalls (calls : List StackCall) (l : List UIState) : List UIState := calls.foldl refCall l

/-! ## Sample data -/

/-- Sample constants: the key masks of libnx, a 512-byte path buffer, the results
numbered in the order listed in §6, and a file system with the directories `""`,
`"/roms"` and `"/roms/gba"`. -/
def sampleEnv : Env where
  KEY_A := 1
  KEY_B := 2
  KEY_X := 4
  KEY_UP := 2236416
  KEY_DOWN := 8945664
  KEY_LEFT := 1118208
  KEY_RIGHT := 4472832
  PATH_LENGTH := 512
  resultNone := 0
  resultExit := 1
  resultSelectedFile := 2
  resultSettingsChanged := 3
  resultUnpause := 4
  resultLoadState := 5
  resultSaveState := 6
  resultClose := 7
  isDirectory := fun path =>
    path = [] || path = "/roms".toList || path = "/roms/gba".toList
  getDirectoryContents := fun _ dir =>
    if dir = "/roms/gba".toList then ["..".toList, "game.gba".toList]
    else if dir = "/roms".toList then ["..".toList, "gba".toList]
    else ["..".toList, "roms".toList]

/-- Display strings of the sample setting "Scale". -/
def scaleValues : List CStr := ["1x".toList, "2x".toList, "3x".toList]

/-- Display strings of the sample setting "VSync". -/
def vsyncValues : List CStr := ["Off".toList, "On".toList]

/-- State of the globals before any call: everything zero or empty, no settings
file. -/
def startUI : UI where
  filenames := []
  selectedPath := []
  currentDirectory := []
  cursor := 0
  scroll := 0
  settings := []
  settingsMetaStart := 0
  settingsChanged := false
  uiStateStack := fun _ => UIState.stateFileselect
  uiStateStackCount := 0
  statusMessageFadeout := 0
  mem := fun _ => 0
  iniFile := none

/-- The sample registration of §8: "Scale" over {1x,2x,3x} bound to slot 0, "VSync"
over {Off,On} bound to slot 1, then the meta boundary with its "Exit" entry; the
Settings view is pushed. -/
def sampleSettingsUI : UI :=
  uiPushState UIState.stateSettings
    (uiFinaliseAndLoadSettings sampleEnv
      (uiAddSetting "VSync".toList (some 1) 2 vsyncValues false
        (uiAddSetting "Scale".toList (some 0) 3 scaleValues false startUI)))

/-- A registration whose value count is `UINT32_MAX`, in the Settings view. -/
def wideSettingsUI : UI :=
  uiPushState UIState.stateSettings
    (uiFinaliseAndLoadSettings sampleEnv
      (uiAddSetting "Wide".toList (some 0) 4294967295
        (List.replicate 4294967295 "v".toList) false startUI))

/-- Setting `i` is highlighted in the Settings view and is a normal setting bound to
slot `p` with `L` values. -/
def Selects (st : UI) (i p L : Nat) : Prop :=
  uiGetState st = UIState.stateSettings ∧ st.cursor = (i : Int) ∧
  ∃ s, st.settings[i]? = some s ∧ s.meta = false ∧ s.valueIdx = some p ∧ s.valuesCount = L

/-- A registration of "Scale" over three values at index 0, with a settings file that
stores 7 for it. -/
def staleIniUI : UI :=
  uiAddSetting "Scale".toList (some 0) 3 scaleValues false
    { startUI with
      iniFile := some [IniLine.header "misc".toList, IniLine.keyValue "Scale".toList 7] }

/-- A setting with its derived string blanked: what the registration fixed. -/
def eraseString (s : Setting) : Setting := { s with generatedString := [] }

/-- Round `i` of the load loop over the settings `l` stores `x` into slot `p`. -/
def Writes (cfg : IniFile) (l : List Setting) (i p x : Nat) : Prop :=
  ∃ s v, l[i]? = some s ∧ s.valueIdx = some p ∧ ini_sget cfg s.name = some v ∧ scanU32 v = x

/-- Two program states differ at most in the setting strings and the value slots. -/
def SameOutsideSettings (a b : UI) : Prop :=
  a.filenames = b.filenames ∧ a.selectedPath = b.selectedPath ∧
  a.currentDirectory = b.currentDirectory ∧ a.cursor = b.cursor ∧ a.scroll = b.scroll ∧
  a.settingsMetaStart = b.settingsMetaStart ∧ a.settingsChanged = b.settingsChanged ∧
  a.uiStateStack = b.uiStateStack ∧ a.uiStateStackCount = b.uiStateStackCount ∧
  a.statusMessageFadeout = b.statusMessageFadeout ∧ a.iniFile = b.iniFile

/-- The persisted settings: the entries below `settingsMetaStart`. -/
def persisted (st : UI) : List Setting := st.settings.take st.settingsMetaStart

/-- The sample settings after one confirm on "Scale" (key A alone). -/
def changedUI : UI := (uiLoop sampleEnv 1 sampleSettingsUI).2

/-- The sample registrations made again on a fresh collection that finds the settings
file left by `saved`. -/
def freshSample (saved : UI) : UI :=
  uiAddSetting "VSync".toList (some 1) 2 vsyncValues false
    (uiAddSetting "Scale".toList (some 0) 3 scaleValues false
      { startUI with iniFile := saved.iniFile })

/-- Two settings registered under the same name "Mode", bound to slots 0 and 1. -/
def twinRegistrations (st : UI) : UI :=
  uiAddSetting "Mode".toList (some 1) 2 vsyncValues false
    (uiAddSetting "Mode".toList (some 0) 2 vsyncValues false st)

/-- The twin settings in the Settings view after one frame with d-pad down and A: the
cursor moves to the second "Mode" and its value becomes 1. -/
def twinChangedUI : UI :=
  (uiLoop sampleEnv 32769
    (uiPushState UIState.stateSettings
      (uiFinaliseAndLoadSettings sampleEnv (twinRegistrations startUI)))).2

/-- The twin registrations made again on a fresh collection that finds the settings file
left by `saved`. -/
def twinFresh (saved : UI) : UI := twinRegistrations { startUI with iniFile := saved.iniFile }

/-- The display string in the spec's words: `"<name>: <allowedValues[value]>"` for a
normal setting, `"<name>"` for a meta setting; `none` when `value` is not an index of
`allowedValues`. -/
def displayFormat (s : Setting) (value : Nat) : Option CStr :=
  if s.meta then some s.name
  else (s.strValues[value]?).map (fun text => s.name ++ ": ".toList ++ text)

/-- The display text for `value` exists and is short enough for what
`generateSettingString` stores: 254 bytes for a normal setting (`snprintf` with size
255), 255 bytes for a meta setting. -/
def Fits (s : Setting) (value : Nat) : Prop :=
  ∃ text, displayFormat s value = some text ∧ text.length ≤ (if s.meta then 255 else 254)

/-- The reads of `generateSettingString` are defined in C for this setting: a meta
setting reads only its name; a normal setting needs a non-NULL `valueIdx` and a value
index within `strValues`.  Where this fails, `settingText` describes no C execution. -/
def stringReadDefined (mem : Nat → Nat) (s : Setting) : Bool :=
  s.meta ||
    (match s.valueIdx with
     | some p => decide (mem p < s.strValues.length)
     | none => false)

/-- The round of the load loop of `uiFinaliseAndLoadSettings` for the setting `s` is
defined in C: when the key of `s` is stored, `ini_sget` stores through `valueIdx`, which
must not be NULL, and `generateSettingString` then reads `strValues` at the stored
integer unless `s` is meta. -/
def loadRoundDefined (cfg : IniFile) (s : Setting) : Bool :=
  match ini_sget cfg s.name with
  | none => true
  | some w =>
    match s.valueIdx with
    | none => false
    | some _ => s.meta || decide (scanU32 w < s.strValues.length)

/-- A normal setting whose display text is 255 bytes long: a name of 251 bytes, then
`": "` and `"1x"`. -/
def longNameUI : UI :=
  uiAddSetting (List.replicate 251 'n') (some 0) 1 ["1x".toList] false startUI

/-- Two settings "A" and "B" bound to the same slot 0 (value 0), with a settings file
that stores 0 for "A" and 1 for "B". -/
def sharedSlotUI : UI :=
  uiAddSetting "B".toList (some 0) 2 vsyncValues false
    (uiAddSetting "A".toList (some 0) 2 vsyncValues false
      { startUI with
        iniFile := some [IniLine.header "misc".toList, IniLine.keyValue "A".toList 0,
          IniLine.keyValue "B".toList 1] })

/-- The sample registrations with a settings file that stores 2 for "Scale". -/
def storedScaleUI : UI :=
  freshSample { startUI with
    iniFile := some [IniLine.header "misc".toList, IniLine.keyValue "Scale".toList 2] }

/-- The entry of "Scale" in the sample registrations, at value index 0. -/
def scaleEntry : Setting :=
  { name := "Scale".toList, valuesCount := 3, valueIdx := some 0, strValues := scaleValues,
    generatedString := "Scale: 1x".toList, meta := false }

/-- The "Exit" entry of the sample registrations (`resultClose` is 7 there). -/
def exitEntry : Setting :=
  { name := "Exit".toList, valuesCount := 7, valueIdx := none, strValues := [],
    generatedString := "Exit".toList, meta := true }

/-- The file browser after `uiInit` and two frames with d-pad down and A: it has entered
"roms" and then "gba", so that `currentDirectory` is "/roms/gba". -/
def gbaDirUI : UI := frames sampleEnv 32769 2 (uiInit sampleEnv startUI)

/-- A file browser deep in the tree: `currentDirectory` is 300 bytes long and the
highlighted entry is a file name of 250 bytes. -/
def deepDirUI : UI :=
  { startUI with
    currentDirectory := '/' :: List.replicate 299 'd',
    filenames := ["..".toList, List.replicate 250 'f'],
    cursor := 1 }

/-- A call sequence that overfills the stack and then pops it down to two entries:
five pushes, the fifth onto a full stack, then two pops. -/
def sampleCalls : List StackCall :=
  [StackCall.push UIState.stateFileselect, StackCall.push UIState.stateRunning,
   StackCall.push UIState.statePaused, StackCall.push UIState.stateSettings,
   StackCall.push UIState.stateRemapButtons, StackCall.pop, StackCall.pop]

/-- The pause menu: `statePaused` pushed on the start state. -/
def pausedUI : UI := uiPushState UIState.statePaused startUI

/-- The remap screen: `stateRemapButtons` pushed on the start state. -/
def remapUI : UI := uiPushState UIState.stateRemapButtons startUI

/-- The state the file branch of the handler works on: `cursor = 0` when cancel is
pressed (`if (keysDown & KEY_B) cursor = 0;`). -/
def cancelToTop (E : Env) (keysDown : Nat) (st : UI) : UI :=
  if pressed keysDown E.KEY_B then { st with cursor := 0 } else st

/-- The entry `filenames[cursor]` that the file branch of the handler reads. -/
def selectedEntry (E : Env) (keysDown : Nat) (st : UI) : CStr :=
  (atIndex (cancelToTop E keysDown st).filenames (cancelToTop E keysDown st).cursor).getD []

/-- The content of the local `path` of the file branch when it is classified. -/
def resolvedPath (E : Env) (keysDown : Nat) (st : UI) : CStr :=
  if selectedEntry E keysDown st = "..".toList then
    parentSearch st.currentDirectory st.currentDirectory.length
  else snprintf E.PATH_LENGTH (st.currentDirectory ++ "/".toList ++ selectedEntry E keysDown st)

/-- The backward search of the file branch with its `int` loop variable,
`for (int i = length - 1; i >= 0; i--)`, started at `i`: the content of `path`
afterwards and the indices at which `currentDirectory[i]` was read, first read first.
`fuel` bounds the number of rounds; `none` means it ran out. -/
def parentLoop (dir : CStr) : Nat → Int → Option (CStr × List Int)
  | 0, _ => none
  | fuel + 1, i =>
    if i ≥ 0 then
      if dir[i.toNat]? = some '/' then some (dir.take i.toNat, [i])
      else (parentLoop dir fuel (i - 1)).map (fun r => (r.1, i :: r.2))
    else some ([], [])

/-- The file browser after `uiInit` and one frame with d-pad down and A: it has entered
"roms", so that `currentDirectory` is "/roms" and the cursor is on "..". -/
def romsDirUI : UI := frames sampleEnv 32769 1 (uiInit sampleEnv startUI)

/-- A file browser whose listing has ".." in second place, with the cursor on it. -/
def oddListingUI : UI :=
  { startUI with
    currentDirectory := "/roms/gba".toList,
    filenames := ["game.gba".toList, "..".toList],
    cursor := 1 }

/-- The settings file in the spec's words: the section header, then one `name=index`
line per persisted setting, in registration order. -/
def savedFile (st : UI) : IniFile :=
  IniLine.header "Misc".toList :: (persisted st).map (settingLine st.mem)

/-- The entry of "VSync" in the sample registrations, at value index 0. -/
def vsyncEntry : Setting :=
  { name := "VSync".toList, valuesCount := 2, valueIdx := some 1, strValues := vsyncValues,
    generatedString := "VSync: Off".toList, meta := false }

/-- The two settings sharing slot 0, after the load, in the Settings view; the shared
value index is 1 and the cursor is on "A". -/
def sharedViewUI : UI :=
  uiPushState UIState.stateSettings (uiFinaliseAndLoadSettings sampleEnv sharedSlotUI)

/-- Two settings "A" and "B" bound to the same slot 0 (value 0), with a settings file
that stores 1 for "B" and has no line for "A". -/
def halfStoredUI : UI :=
  uiAddSetting "B".toList (some 0) 2 vsyncValues false
    (uiAddSetting "A".toList (some 0) 2 vsyncValues false
      { startUI with
        iniFile := some [IniLine.header "misc".toList, IniLine.keyValue "B".toList 1] })

/-- A meta setting "Act" bound to slot 5 that is registered before the meta boundary,
after "Scale"; then the Settings view is pushed and one confirm on "Scale" (key A alone)
sets the dirty flag. -/
def metaBelowUI : UI :=
  (uiLoop sampleEnv 1
    (uiPushState UIState.stateSettings
      (uiFinaliseAndLoadSettings sampleEnv
        (uiAddSetting "Act".toList (some 5) 9 [] true
          (uiAddSetting "Scale".toList (some 0) 3 scaleValues false startUI))))).2

/-- The setting "Wide" with `UINT32_MAX` values, bound to slot 0 holding `2^31`; then
the Settings view is pushed and one confirm on "Wide" (key A alone) makes the value
index `2^31 + 1` and sets the dirty flag. -/
def highIndexUI : UI :=
  (uiLoop sampleEnv 1
    (uiPushState UIState.stateSettings
      (uiFinaliseAndLoadSettings sampleEnv
        (uiAddSetting "Wide".toList (some 0) 4294967295
          (List.replicate 4294967295 "v".toList) false
          { startUI with mem := fun _ => 2147483648 })))).2

/-- The reads of the write loop of `uiSaveSettings` are defined in C: every index below
`settingsMetaStart` is that of a registered setting, and each of these has a non-NULL
`valueIdx`. -/
def saveReadDefined (st : UI) : Bool :=
  decide (st.settingsMetaStart ≤ st.settings.length) &&
    (persisted st).all (fun s => s.valueIdx.isSome)

/-! ## Navigation: invariants and closed form -/

/-- The window invariant of `(cursor, scroll)` for a list of `n` items. -/
def NavInv (n : Int) (p : Int × Int) : Prop :=
  0 ≤ p.2 ∧ p.2 ≤ p.1 ∧ p.1 < p.2 + 60 ∧ p.2 ≤ max 0 (n - 60) ∧ p.1 ≤ max 0 (n - 1)

/-- The deltas the direction keys produce. -/
def IsDelta (d : Int) : Prop := d = 1 ∨ d = -1 ∨ d = 5 ∨ d = -5

theorem cursorDown_inv (n : Int) (p : Int × Int) (h : NavInv n p) :
    NavInv n (cursorDown n p) := by
  obtain ⟨c, s⟩ := p
  simp only [NavInv] at h
  unfold cursorDown NavInv
  split_ifs <;> simp only <;> omega

theorem cursorUp_inv (n : Int) (p : Int × Int) (h : NavInv n p) : NavInv n (cursorUp p) := by
  obtain ⟨c, s⟩ := p
  simp only [NavInv] at h
  unfold cursorUp NavInv
  split_ifs <;> simp only <;> omega

theorem iterate_inv {α : Type} (P : α → Prop) (f : α → α) (hf : ∀ a, P a → P (f a))
    (k : Nat) (a : α) (h : P a) : P (f^[k] a) := by
  induction k generalizing a with
  | zero => exact h
  | succ k ih => rw [Function.iterate_succ_apply]; exact ih _ (hf a h)

theorem navigate_inv (d n : Int) (p : Int × Int) (h : NavInv n p) :
    NavInv n (navigate d n p) := by
  unfold navigate
  split_ifs
  · exact iterate_inv (NavInv n) (cursorDown n) (cursorDown_inv n) _ p h
  · exact iterate_inv (NavInv n) cursorUp (cursorUp_inv n) _ p h
  · exact h

theorem navigateAll_inv (n : Int) (ds : List Int) (p : Int × Int) (h : NavInv n p) :
    NavInv n (navigateAll n ds p) := by
  induction ds generalizing p with
  | nil => exact h
  | cons d ds ih => exact ih _ (navigate_inv d n p h)

theorem navInv_origin (n : Int) : NavInv n (0, 0) := by
  unfold NavInv
  simp only
  omega

/-- Closed form of `k` rounds of the downward loop. -/
theorem cursorDown_iterate (n : Int) (k : Nat) (c s : Int) (hc : c ≤ n - 1) (hw : c < s + 60) :
    (cursorDown n)^[k] (c, s)
      = (min (c + k) (n - 1), max s (min (c + k) (n - 1) - 59)) := by
  induction k generalizing c s with
  | zero =>
    simp only [Function.iterate_zero, id_eq, Nat.cast_zero, add_zero]
    congr 1 <;> omega
  | succ k ih =>
    rw [Function.iterate_succ_apply]
    by_cases h1 : c < n - 1
    · by_cases h2 : (c + 1) - s ≥ 60
      · have e : cursorDown n (c, s) = (c + 1, s + 1) := by simp [cursorDown, h1, h2]
        rw [e, ih (c + 1) (s + 1) (by omega) (by omega)]
        push_cast
        congr 1 <;> omega
      · have e : cursorDown n (c, s) = (c + 1, s) := by simp [cursorDown, h1, h2]
        rw [e, ih (c + 1) s (by omega) (by omega)]
        push_cast
        congr 1 <;> omega
    · have e : cursorDown n (c, s) = (c, s) := by simp [cursorDown, h1]
      rw [e, ih c s hc hw]
      push_cast
      congr 1 <;> omega

/-- Closed form of `k` rounds of the upward loop. -/
theorem cursorUp_iterate (k : Nat) (c s : Int) (hc : 0 ≤ c) (hs : s ≤ c) :
    cursorUp^[k] (c, s) = (max (c - k) 0, min s (max (c - k) 0)) := by
  induction k generalizing c s with
  | zero =>
    simp only [Function.iterate_zero, id_eq, Nat.cast_zero, sub_zero]
    congr 1 <;> omega
  | succ k ih =>
    rw [Function.iterate_succ_apply]
    by_cases h1 : c > 0
    · by_cases h2 : (c - 1) - s < 0
      · have e : cursorUp (c, s) = (c - 1, s - 1) := by simp [cursorUp, h1, h2]
        rw [e, ih (c - 1) (s - 1) (by omega) (by omega)]
        push_cast
        congr 1 <;> omega
      · have e : cursorUp (c, s) = (c - 1, s) := by simp [cursorUp, h1, h2]
        rw [e, ih (c - 1) s (by omega) (by omega)]
        push_cast
        congr 1 <;> omega
    · have e : cursorUp (c, s) = (c, s) := by simp [cursorUp, h1]
      rw [e, ih c s hc hs]
      push_cast
      congr 1 <;> omega

/-! ## Claims on navigation -/

/-- C1, as stated, fails for an empty list: with `itemCount = 0` the cursor is 0 after
a `+1` step, which is not within `[0, itemCount - 1] = [0, -1]`. -/
theorem C1_counterexample_empty_list :
    IsDelta 1 ∧ (navigateAll 0 [1] (0, 0)).1 = 0 ∧ ¬ ((navigateAll 0 [1] (0, 0)).1 ≤ 0 - 1) := by
  refine ⟨Or.inl rfl, by decide, by decide⟩

/-- C1 (amended): starting from cursor = 0 and scroll = 0, for every list length
`itemCount` and every sequence of deltas from {+1, -1, +5, -5}, after every step of the
sequence the cursor is within `[0, max 0 (itemCount - 1)]`, that is within
`[0, itemCount - 1]` for a non-empty list and 0 for an empty one. -/
theorem C1_cursor_in_range (itemCount : Int) (ds : List Int) (_hd : ∀ d ∈ ds, IsDelta d)
    (k : Nat) :
    0 ≤ (navigateAll itemCount (ds.take k) (0, 0)).1 ∧
    (navigateAll itemCount (ds.take k) (0, 0)).1 ≤ max 0 (itemCount - 1) ∧
    (1 ≤ itemCount → (navigateAll itemCount (ds.take k) (0, 0)).1 ≤ itemCount - 1) := by
  have h := navigateAll_inv itemCount (ds.take k) (0, 0) (navInv_origin itemCount)
  simp only [NavInv] at h
  refine ⟨by omega, by omega, fun h1 => by omega⟩

theorem C1_cursor_in_range_witness :
    (∀ d ∈ [5, 5, -1, 1, -5], IsDelta d) ∧
    0 ≤ (navigateAll 4 (List.take 3 [5, 5, -1, 1, -5]) (0, 0)).1 ∧
    (navigateAll 4 (List.take 3 [5, 5, -1, 1, -5]) (0, 0)).1 ≤ max 0 (4 - 1) ∧
    (navigateAll 4 (List.take 3 [5, 5, -1, 1, -5]) (0, 0)).1 ≤ 4 - 1 :=
  have hd : ∀ d ∈ ([5, 5, -1, 1, -5] : List Int), IsDelta d := by
    unfold IsDelta
    decide
  have h := C1_cursor_in_range 4 [5, 5, -1, 1, -5] hd 3
  ⟨hd, h.1, h.2.1, h.2.2 (by decide)⟩

/-- C2: starting from cursor = 0 and scroll = 0, for every list length `itemCount` and
every sequence of deltas from {+1, -1, +5, -5}, after every step of the sequence scroll
is within `[0, max 0 (itemCount - 60)]` and `scroll ≤ cursor < scroll + 60`. -/
theorem C2_scroll_window (itemCount : Int) (ds : List Int) (_hd : ∀ d ∈ ds, IsDelta d)
    (k : Nat) :
    0 ≤ (navigateAll itemCount (ds.take k) (0, 0)).2 ∧
    (navigateAll itemCount (ds.take k) (0, 0)).2 ≤ max 0 (itemCount - 60) ∧
    (navigateAll itemCount (ds.take k) (0, 0)).2 ≤ (navigateAll itemCount (ds.take k) (0, 0)).1 ∧
    (navigateAll itemCount (ds.take k) (0, 0)).1
      < (navigateAll itemCount (ds.take k) (0, 0)).2 + 60 := by
  have h := navigateAll_inv itemCount (ds.take k) (0, 0) (navInv_origin itemCount)
  simp only [NavInv] at h
  exact ⟨h.1, h.2.2.2.1, h.2.1, h.2.2.1⟩

theorem C2_scroll_window_witness :
    (∀ d ∈ List.replicate 20 (5 : Int), IsDelta d) ∧
    0 ≤ (navigateAll 200 (List.take 15 (List.replicate 20 5)) (0, 0)).2 ∧
    (navigateAll 200 (List.take 15 (List.replicate 20 5)) (0, 0)).2 ≤ max 0 (200 - 60) ∧
    (navigateAll 200 (List.take 15 (List.replicate 20 5)) (0, 0)).2
      ≤ (navigateAll 200 (List.take 15 (List.replicate 20 5)) (0, 0)).1 ∧
    (navigateAll 200 (List.take 15 (List.replicate 20 5)) (0, 0)).1
      < (navigateAll 200 (List.take 15 (List.replicate 20 5)) (0, 0)).2 + 60 :=
  have hd : ∀ d ∈ List.replicate 20 (5 : Int), IsDelta d := by
    intro d h
    rw [List.eq_of_mem_replicate h]
    exact Or.inr (Or.inr (Or.inl rfl))
  ⟨hd, C2_scroll_window 200 (List.replicate 20 5) hd 15⟩

/-- C3: from a state with `0 ≤ cursor ≤ itemCount - 1` and `scroll ≤ cursor < scroll + 60`,
one navigation step with a delta `d` in {+1, -1, +5, -5} gives
`cursor' = min (max (cursor + d) 0) (itemCount - 1)`, and
`scroll' = max scroll (cursor' - 59)` when `d > 0`, `scroll' = min scroll cursor'` when
`d < 0`. -/
theorem C3_navigate_step (itemCount c s d : Int) (hc0 : 0 ≤ c) (hc1 : c ≤ itemCount - 1)
    (hs : s ≤ c) (hw : c < s + 60) (hd : IsDelta d) :
    (navigate d itemCount (c, s)).1 = min (max (c + d) 0) (itemCount - 1) ∧
    (d > 0 → (navigate d itemCount (c, s)).2
      = max s ((navigate d itemCount (c, s)).1 - 59)) ∧
    (d < 0 → (navigate d itemCount (c, s)).2 = min s (navigate d itemCount (c, s)).1) := by
  have hd0 : d ≠ 0 := by
    rcases hd with h | h | h | h <;> omega
  by_cases hpos : d > 0
  · have e : navigate d itemCount (c, s)
        = (min (c + d) (itemCount - 1), max s (min (c + d) (itemCount - 1) - 59)) := by
      unfold navigate
      rw [if_pos hpos, cursorDown_iterate itemCount d.toNat c s hc1 hw, Int.toNat_of_nonneg (by omega)]
    rw [e]
    refine ⟨?_, fun _ => rfl, fun h => by omega⟩
    simp only
    omega
  · have hneg : d < 0 := by omega
    have e : navigate d itemCount (c, s) = (max (c + d) 0, min s (max (c + d) 0)) := by
      unfold navigate
      rw [if_neg hpos, if_pos hneg, cursorUp_iterate (-d).toNat c s hc0 hs,
        Int.toNat_of_nonneg (by omega)]
      congr 1
      · omega
      · omega
    rw [e]
    refine ⟨?_, fun h => by omega, fun _ => rfl⟩
    simp only
    omega

theorem C3_navigate_step_witness :
    ((navigate 5 100 (58, 0)).1 = min (max (58 + 5) 0) (100 - 1) ∧
      (navigate 5 100 (58, 0)).2 = max 0 ((navigate 5 100 (58, 0)).1 - 59)) ∧
    ((navigate (-5) 100 (58, 57)).1 = min (max (58 + -5) 0) (100 - 1) ∧
      (navigate (-5) 100 (58, 57)).2 = min 57 (navigate (-5) 100 (58, 57)).1) :=
  have hdown := C3_navigate_step 100 58 0 5 (by decide) (by decide) (by decide) (by decide)
    (Or.inr (Or.inr (Or.inl rfl)))
  have hup := C3_navigate_step 100 58 57 (-5) (by decide) (by decide) (by decide) (by decide)
    (Or.inr (Or.inr (Or.inr rfl)))
  ⟨⟨hdown.1, hdown.2.1 (by decide)⟩, ⟨hup.1, hup.2.2 (by decide)⟩⟩

/-! ## Claims on the state stack -/

theorem stackList_push (state : UIState) (st : UI) :
    stackList (uiPushState state st) = refPush state (stackList st) := by
  unfold uiPushState refPush stackList UI_STATESTACK_MAX
  simp only [List.length_map, List.length_range]
  by_cases h : st.uiStateStackCount < 4
  · simp only [h, if_true, List.range_succ, List.map_append, List.map_cons, List.map_nil,
      Function.update_same]
    congr 1
    apply List.map_congr_left
    intro i hi
    have hlt : i < st.uiStateStackCount := List.mem_range.mp hi
    exact Function.update_noteq (by omega) _ _
  · simp only [h, if_false]

theorem stackList_pop (st : UI) : stackList (uiPopState st) = refPop (stackList st) := by
  unfold uiPopState refPop stackList
  by_cases h : st.uiStateStackCount > 0
  · obtain ⟨n, hn⟩ : ∃ n, st.uiStateStackCount = n + 1 := ⟨st.uiStateStackCount - 1, by omega⟩
    have hpos : n + 1 > 0 := Nat.succ_pos n
    simp only [hn, hpos, if_true, Nat.add_sub_cancel, List.range_succ, List.map_append,
      List.map_cons, List.map_nil, List.dropLast_concat]
  · have h0 : st.uiStateStackCount = 0 := by omega
    simp [h0]

theorem uiGetState_top (st : UI) : uiGetState st = refTop (stackList st) := by
  unfold uiGetState refTop stackList
  by_cases h : st.uiStateStackCount = 0
  · simp [h]
  · obtain ⟨n, hn⟩ : ∃ n, st.uiStateStackCount = n + 1 := ⟨st.uiStateStackCount - 1, by omega⟩
    simp [hn, List.range_succ]

theorem stackList_calls (calls : List StackCall) (st : UI) :
    stackList (applyCalls calls st) = refCalls calls (stackList st) := by
  induction calls generalizing st with
  | nil => rfl
  | cons c cs ih =>
    have e : stackList (applyCall st c) = refCall (stackList st) c := by
      cases c with
      | push state => exact stackList_push state st
      | pop => exact stackList_pop st
    simp only [applyCalls, refCalls, List.foldl_cons] at ih ⊢
    rw [ih, e]

theorem refCalls_length_le (calls : List StackCall) (l : List UIState) (h : l.length ≤ 4) :
    (refCalls calls l).length ≤ 4 := by
  induction calls generalizing l with
  | nil => exact h
  | cons c cs ih =>
    simp only [refCalls, List.foldl_cons] at ih ⊢
    apply ih
    cases c with
    | push state =>
      simp only [refCall, refPush]
      split_ifs with h1
      · rw [List.length_append, List.length_singleton]
        omega
      · exact h
    | pop =>
      simp only [refCall, refPop, List.length_dropLast]
      omega

/-- C4: for every sequence of `uiPushState` / `uiPopState` calls, from every state whose
stack is within the array (in particular from the empty stack), the stack held in
`uiStateStack[0 .. uiStateStackCount)` equals the reference list bounded at depth 4
after the same calls (a push onto a full stack and a pop of an empty stack change
nothing, otherwise push appends and pop removes the top), its depth is the length of
that list and never exceeds 4, and `uiGetState` returns the top of the reference list,
or `FileSelect` when it is empty. -/
theorem C4_stack_refines_bounded_list (calls : List StackCall) (st : UI)
    (hcount : st.uiStateStackCount ≤ UI_STATESTACK_MAX) :
    stackList (applyCalls calls st) = refCalls calls (stackList st) ∧
    (applyCalls calls st).uiStateStackCount = (refCalls calls (stackList st)).length ∧
    (applyCalls calls st).uiStateStackCount ≤ 4 ∧
    uiGetState (applyCalls calls st) = refTop (refCalls calls (stackList st)) := by
  have h := stackList_calls calls st
  have hlen : (applyCalls calls st).uiStateStackCount
      = (refCalls calls (stackList st)).length := by
    rw [← h]
    simp [stackList]
  refine ⟨h, hlen, ?_, ?_⟩
  · rw [hlen]
    apply refCalls_length_le
    simpa [stackList, UI_STATESTACK_MAX] using hcount
  · rw [← h]
    exact uiGetState_top _

theorem C4_stack_refines_bounded_list_witness :
    stackList (applyCalls sampleCalls startUI) = refCalls sampleCalls (stackList startUI) ∧
    (applyCalls sampleCalls startUI).uiStateStackCount
      = (refCalls sampleCalls (stackList startUI)).length ∧
    (applyCalls sampleCalls startUI).uiStateStackCount ≤ 4 ∧
    uiGetState (applyCalls sampleCalls startUI)
      = refTop (refCalls sampleCalls (stackList startUI)) :=
  C4_stack_refines_bounded_list sampleCalls startUI (by decide)

/-! ## One frame in the Settings view -/

theorem navigate_zero (n : Int) (p : Int × Int) : navigate 0 n p = p := by
  simp [navigate]

theorem moveCursor_still (E : Env) (keysDown : Nat) (state : UIState) (st : UI)
    (hnav : scrollAmountOf E keysDown = 0) : moveCursor E keysDown state st = st := by
  unfold moveCursor
  rw [hnav, navigate_zero]

/-- In the Settings state, without quit and with confirm or cancel, the frame is the
navigation followed by the settings branch of the handler. -/
theorem uiLoop_settings (E : Env) (keysDown : Nat) (st : UI)
    (hstate : uiGetState st = UIState.stateSettings)
    (hX : pressed keysDown E.KEY_X = false)
    (hAB : (pressed keysDown E.KEY_A || pressed keysDown E.KEY_B) = true) :
    uiLoop E keysDown st
      = selectSetting E keysDown (moveCursor E keysDown UIState.stateSettings st) := by
  unfold uiLoop
  simp [hstate, hX, hAB]

theorem atIndex_natCast {α : Type} (a : List α) (i : Nat) : atIndex a (i : Int) = a[i]? := by
  simp [atIndex]

/-- The settings branch on a normal setting. -/
theorem selectSetting_normal (E : Env) (keysDown : Nat) (st : UI) (i : Nat) (s : Setting)
    (hcur : st.cursor = (i : Int)) (hs : st.settings[i]? = some s) (hm : s.meta = false) :
    selectSetting E keysDown st
      = (E.resultSettingsChanged,
          { st with
            mem := poke st.mem s.valueIdx
              (nextValue (pressed keysDown E.KEY_A) s.valuesCount (deref st.mem s.valueIdx)),
            settings := st.settings.set i
              { s with generatedString :=
                  settingText (poke st.mem s.valueIdx
                    (nextValue (pressed keysDown E.KEY_A) s.valuesCount
                      (deref st.mem s.valueIdx))) s },
            settingsChanged := true }) := by
  unfold selectSetting
  simp [hcur, atIndex_natCast, hs, hm, generateSettingString]

/-- The settings branch on a meta setting. -/
theorem selectSetting_meta (E : Env) (keysDown : Nat) (st : UI) (i : Nat) (s : Setting)
    (hcur : st.cursor = (i : Int)) (hs : st.settings[i]? = some s) (hm : s.meta = true) :
    selectSetting E keysDown st = (s.valuesCount, st) := by
  unfold selectSetting
  simp [hcur, atIndex_natCast, hs, hm]

theorem valueOf_selects (st : UI) (i p L : Nat) (h : Selects st i p L) :
    valueOf st i = st.mem p := by
  obtain ⟨_, _, s, hs, _, hp, _⟩ := h
  simp [valueOf, hs, hp, deref]

/-- One confirm/cancel frame on a highlighted normal setting. -/
theorem frame_selects (E : Env) (keysDown : Nat) (st : UI) (i p L : Nat)
    (h : Selects st i p L)
    (hX : pressed keysDown E.KEY_X = false)
    (hAB : (pressed keysDown E.KEY_A || pressed keysDown E.KEY_B) = true)
    (hnav : scrollAmountOf E keysDown = 0) :
    Selects (uiLoop E keysDown st).2 i p L ∧
    (uiLoop E keysDown st).2.mem p = nextValue (pressed keysDown E.KEY_A) L (st.mem p) ∧
    (uiLoop E keysDown st).1 = E.resultSettingsChanged := by
  obtain ⟨hstate, hcur, s, hs, hm, hp, hL⟩ := h
  have hlt : i < st.settings.length := by
    rcases Nat.lt_or_ge i st.settings.length with h | h
    · exact h
    · rw [List.getElem?_eq_none h] at hs
      cases hs
  rw [uiLoop_settings E keysDown st hstate hX hAB, moveCursor_still E keysDown _ st hnav,
    selectSetting_normal E keysDown st i s hcur hs hm]
  refine ⟨⟨?_, hcur, ?_⟩, ?_, rfl⟩
  · simpa [uiGetState] using hstate
  · refine ⟨{ s with generatedString := settingText (poke st.mem s.valueIdx
        (nextValue (pressed keysDown E.KEY_A) s.valuesCount (deref st.mem s.valueIdx))) s },
      ?_, hm, hp, hL⟩
    simp [hlt]
  · simp [hp, hL, poke, deref]

/-- The state after `n` equal confirm/cancel frames on a highlighted normal setting. -/
theorem frames_selects (E : Env) (keysDown : Nat) (st : UI) (i p L : Nat)
    (h : Selects st i p L)
    (hX : pressed keysDown E.KEY_X = false)
    (hAB : (pressed keysDown E.KEY_A || pressed keysDown E.KEY_B) = true)
    (hnav : scrollAmountOf E keysDown = 0) (n : Nat) :
    Selects (frames E keysDown n st) i p L ∧
    (frames E keysDown n st).mem p
      = (nextValue (pressed keysDown E.KEY_A) L)^[n] (st.mem p) := by
  induction n with
  | zero => exact ⟨h, rfl⟩
  | succ n ih =>
    have e : frames E keysDown (n + 1) st = (uiLoop E keysDown (frames E keysDown n st)).2 := by
      unfold frames
      rw [Function.iterate_succ_apply']
    have hf := frame_selects E keysDown (frames E keysDown n st) i p L ih.1 hX hAB hnav
    rw [e, Function.iterate_succ_apply', ← ih.2]
    exact ⟨hf.1, hf.2.1⟩

/-! ## The wrap-around arithmetic -/

theorem nextValue_confirm (L v : Nat) (hv : v < L) (hL : L ≤ 4294967294) :
    nextValue true L v = (v + 1) % L := by
  unfold nextValue UINT32_MAX
  have h1 : (v + 1) % 4294967296 = v + 1 := Nat.mod_eq_of_lt (by omega)
  simp only [if_true, h1]
  have h2 : ¬ (v + 1 = 4294967295) := by omega
  simp only [h2, if_false]
  by_cases h3 : v + 1 ≥ L
  · have h4 : v + 1 = L := by omega
    simp [h4]
  · simp only [h3, if_false]
    exact (Nat.mod_eq_of_lt (by omega)).symm

theorem nextValue_cancel (L v : Nat) (hv : v < L) (hL : L ≤ 4294967295) :
    nextValue false L v = (v + (L - 1)) % L := by
  unfold nextValue UINT32_MAX
  by_cases h0 : v = 0
  · subst h0
    have h1 : (L + 4294967295) % 4294967296 = L - 1 := by omega
    have h2 : ¬ (L - 1 ≥ L) := by omega
    simp only [Bool.false_eq_true, if_false, Nat.zero_add, Nat.reduceMod, if_true, h1, h2]
    exact (Nat.mod_eq_of_lt (by omega)).symm
  · have h1 : (v + 4294967295) % 4294967296 = v - 1 := by omega
    have h2 : ¬ (v - 1 = 4294967295) := by omega
    have h3 : ¬ (v - 1 ≥ L) := by omega
    have h4 : v + (L - 1) = (v - 1) + L := by omega
    simp only [Bool.false_eq_true, if_false, h1, h2, h3]
    rw [h4, Nat.add_mod_right]
    exact (Nat.mod_eq_of_lt (by omega)).symm

theorem confirm_iterate (L : Nat) (h1 : 1 ≤ L) (hL : L ≤ 4294967294) (n : Nat) :
    (nextValue true L)^[n] 0 = n % L := by
  induction n with
  | zero => simp
  | succ n ih =>
    rw [Function.iterate_succ_apply', ih,
      nextValue_confirm L (n % L) (Nat.mod_lt n (by omega)) hL, Nat.mod_add_mod]

theorem cancel_iterate (L : Nat) (h1 : 1 ≤ L) (hL : L ≤ 4294967295) (n : Nat) :
    (((nextValue false L)^[n] 0 : Nat) : Int) = (-(n : Int)) % (L : Int) ∧
    (nextValue false L)^[n] 0 < L := by
  induction n with
  | zero => exact ⟨by simp, by simpa using h1⟩
  | succ n ih =>
    rw [Function.iterate_succ_apply', nextValue_cancel L _ ih.2 hL]
    refine ⟨?_, Nat.mod_lt _ (by omega)⟩
    push_cast
    rw [ih.1, Int.emod_add_emod]
    have e : -(n : Int) + ((L - 1 : Nat) : Int) = (-((n : Int) + 1)) + (L : Int) := by omega
    rw [e, Int.add_emod_self]

/-- With `UINT32_MAX` values the increment is caught by the underflow test at the last
index. -/
theorem confirm_stuck (k : Nat) (hk : k ≤ 4294967294) :
    (nextValue true 4294967295)^[k] 0 = k := by
  induction k with
  | zero => rfl
  | succ k ih =>
    rw [Function.iterate_succ_apply', ih (by omega)]
    unfold nextValue UINT32_MAX
    have h1 : (k + 1) % 4294967296 = k + 1 := Nat.mod_eq_of_lt (by omega)
    have h2 : ¬ (k + 1 = 4294967295) := by omega
    have h3 : ¬ (k + 1 ≥ 4294967295) := by omega
    simp only [if_true, h1, h2, h3, if_false]

theorem confirm_stuck_last : nextValue true 4294967295 4294967294 = 4294967294 := by
  decide

theorem sample_selects : Selects sampleSettingsUI 0 0 3 :=
  ⟨rfl, rfl, _, rfl, rfl, rfl, rfl⟩

theorem wide_selects : Selects wideSettingsUI 0 0 4294967295 :=
  ⟨rfl, rfl, _, rfl, rfl, rfl, rfl⟩

/-! ## Claims on the value index -/

/-- C5, as stated for every L, fails for `L = UINT32_MAX`: starting from value index 0,
after `N = 4294967295` confirm selections the index is `L - 1 = 4294967294` (the step
from `L - 1` reaches `UINT32_MAX`, which the underflow test sends back to `L - 1`),
while `N mod L = 0`. -/
theorem C5_counterexample_sentinel :
    valueOf wideSettingsUI 0 = 0 ∧
    valueOf (frames sampleEnv 1 4294967295 wideSettingsUI) 0 = 4294967294 ∧
    valueOf (frames sampleEnv 1 4294967295 wideSettingsUI) 0 ≠ 4294967295 % 4294967295 := by
  have hf := frames_selects sampleEnv 1 wideSettingsUI 0 0 4294967295 wide_selects
    (by decide) (by decide) (by decide) 4294967295
  have hv : valueOf (frames sampleEnv 1 4294967295 wideSettingsUI) 0 = 4294967294 := by
    rw [valueOf_selects _ 0 0 4294967295 hf.1, hf.2]
    have e : pressed 1 sampleEnv.KEY_A = true := by decide
    have m0 : wideSettingsUI.mem 0 = 0 := rfl
    rw [e, m0]
    show (nextValue true 4294967295)^[4294967294 + 1] 0 = 4294967294
    rw [Function.iterate_succ_apply', confirm_stuck 4294967294 (le_refl _), confirm_stuck_last]
  refine ⟨rfl, hv, ?_⟩
  rw [hv]
  decide

/-- C5 (amended): for a highlighted normal setting in the Settings view whose value
index starts at 0, with `L` allowed values, `N` confirm frames leave the index at
`N mod L` when `1 ≤ L ≤ 2^32 - 2`, and `N` cancel frames leave it at `(-N) mod L` when
`1 ≤ L ≤ 2^32 - 1`. -/
theorem C5_value_after_selections (E : Env) (st : UI) (i p L N kA kB : Nat)
    (h : Selects st i p L) (h0 : st.mem p = 0) (h1 : 1 ≤ L)
    (hA : pressed kA E.KEY_A = true) (hAX : pressed kA E.KEY_X = false)
    (hAnav : scrollAmountOf E kA = 0)
    (hB : pressed kB E.KEY_B = true) (hBA : pressed kB E.KEY_A = false)
    (hBX : pressed kB E.KEY_X = false) (hBnav : scrollAmountOf E kB = 0) :
    (L ≤ 4294967294 → valueOf (frames E kA N st) i = N % L) ∧
    (L ≤ 4294967295 →
      ((valueOf (frames E kB N st) i : Nat) : Int) = (-(N : Int)) % (L : Int)) := by
  constructor
  · intro hL
    have hf := frames_selects E kA st i p L h hAX (by simp [hA]) hAnav N
    rw [valueOf_selects _ i p L hf.1, hf.2, hA, h0]
    exact confirm_iterate L h1 hL N
  · intro hL
    have hf := frames_selects E kB st i p L h hBX (by simp [hB]) hBnav N
    rw [valueOf_selects _ i p L hf.1, hf.2, hBA, h0]
    exact (cancel_iterate L h1 hL N).1

theorem C5_value_after_selections_witness :
    valueOf (frames sampleEnv 1 7 sampleSettingsUI) 0 = 7 % 3 ∧
    ((valueOf (frames sampleEnv 2 7 sampleSettingsUI) 0 : Nat) : Int)
      = (-((7 : Nat) : Int)) % ((3 : Nat) : Int) :=
  have h := C5_value_after_selections sampleEnv sampleSettingsUI 0 0 3 7 1 2 sample_selects rfl
    (by decide) (by decide) (by decide) (by decide) (by decide) (by decide) (by decide)
    (by decide)
  ⟨h.1 (by decide), h.2 (by decide)⟩

/-- A confirm or cancel selection leaves the value index below the value count. -/
theorem nextValue_lt (confirm : Bool) (L v : Nat) (h1 : 1 ≤ L) : nextValue confirm L v < L := by
  unfold nextValue
  simp only
  split_ifs <;> omega

/-- C6 fails in the load path: with "Scale" registered over 3 values at index 0 (so
`0 ≤ value < 3` holds at registration) and a settings file holding `Scale=7`,
`uiFinaliseAndLoadSettings` leaves the value index at 7, which is not below the value
count 3. -/
theorem C6_load_breaks_range :
    (∃ s, staleIniUI.settings[0]? = some s ∧ s.meta = false ∧ s.valuesCount = 3 ∧
      s.strValues.length = 3) ∧
    valueOf staleIniUI 0 < 3 ∧
    valueOf (uiFinaliseAndLoadSettings sampleEnv staleIniUI) 0 = 7 ∧
    ¬ (valueOf (uiFinaliseAndLoadSettings sampleEnv staleIniUI) 0 < 3) := by
  refine ⟨⟨_, rfl, rfl, rfl, rfl⟩, by decide, by decide, by decide⟩

/-! ## The load loop -/

theorem loadAll_succ (cfg : IniFile) (k : Nat) (st : UI) :
    loadAll cfg (k + 1) st = loadSetting cfg (loadAll cfg k st) k := by
  simp [loadAll, List.range_succ, List.foldl_append]

/-- Explicit form of one round of the load loop when the key is stored. -/
theorem loadSetting_hit (cfg : IniFile) (st : UI) (i : Nat) (s : Setting) (v : Int)
    (hs : st.settings[i]? = some s) (hv : ini_sget cfg s.name = some v) :
    loadSetting cfg st i
      = { st with
          mem := poke st.mem s.valueIdx (scanU32 v),
          settings := st.settings.set i
            { s with generatedString := settingText (poke st.mem s.valueIdx (scanU32 v)) s } } := by
  unfold loadSetting
  simp [hs, hv, generateSettingString]

theorem loadSetting_miss (cfg : IniFile) (st : UI) (i : Nat) (s : Setting)
    (hs : st.settings[i]? = some s) (hv : ini_sget cfg s.name = none) :
    loadSetting cfg st i = st := by
  unfold loadSetting
  simp [hs, hv]

theorem loadSetting_none (cfg : IniFile) (st : UI) (i : Nat) (hs : st.settings[i]? = none) :
    loadSetting cfg st i = st := by
  unfold loadSetting
  simp [hs]

/-- One round of the load loop touches only index `i` of the settings. -/
theorem loadSetting_get_ne (cfg : IniFile) (st : UI) (i j : Nat) (h : i ≠ j) :
    (loadSetting cfg st i).settings[j]? = st.settings[j]? := by
  cases hs : st.settings[i]? with
  | none => rw [loadSetting_none cfg st i hs]
  | some s =>
    cases hv : ini_sget cfg s.name with
    | none => rw [loadSetting_miss cfg st i s hs hv]
    | some v =>
      rw [loadSetting_hit cfg st i s v hs hv]
      exact List.getElem?_set_ne h

/-- The load loop leaves the entries from index `k` on as they are. -/
theorem loadAll_get_ge (cfg : IniFile) (k : Nat) (st : UI) (j : Nat) (h : k ≤ j) :
    (loadAll cfg k st).settings[j]? = st.settings[j]? := by
  induction k with
  | zero => rfl
  | succ k ih =>
    rw [loadAll_succ, loadSetting_get_ne cfg _ k j (by omega)]
    exact ih (by omega)

theorem map_set_same {α β : Type} (f : α → β) (l : List α) (i : Nat) (a b : α)
    (ha : l[i]? = some a) (hf : f b = f a) : (l.set i b).map f = l.map f := by
  apply List.ext_getElem?
  intro n
  rw [List.getElem?_map, List.getElem?_map, List.getElem?_set]
  by_cases h : i = n
  · subst h
    have hlt : i < l.length := by
      rcases Nat.lt_or_ge i l.length with h | h
      · exact h
      · rw [List.getElem?_eq_none h] at ha
        cases ha
    simp [hlt, ha, hf]
  · simp [h]

theorem loadSetting_erase (cfg : IniFile) (st : UI) (i : Nat) :
    (loadSetting cfg st i).settings.map eraseString = st.settings.map eraseString := by
  cases hs : st.settings[i]? with
  | none => rw [loadSetting_none cfg st i hs]
  | some s =>
    cases hv : ini_sget cfg s.name with
    | none => rw [loadSetting_miss cfg st i s hs hv]
    | some v =>
      rw [loadSetting_hit cfg st i s v hs hv]
      exact map_set_same eraseString st.settings i s _ hs rfl

/-- The load loop changes no registration, only derived strings. -/
theorem loadAll_erase (cfg : IniFile) (k : Nat) (st : UI) :
    (loadAll cfg k st).settings.map eraseString = st.settings.map eraseString := by
  induction k with
  | zero => rfl
  | succ k ih => rw [loadAll_succ, loadSetting_erase, ih]

theorem sameOutside_refl (a : UI) : SameOutsideSettings a a :=
  ⟨rfl, rfl, rfl, rfl, rfl, rfl, rfl, rfl, rfl, rfl, rfl⟩

theorem sameOutside_trans (a b c : UI) (h1 : SameOutsideSettings a b)
    (h2 : SameOutsideSettings b c) : SameOutsideSettings a c := by
  obtain ⟨a1, a2, a3, a4, a5, a6, a7, a8, a9, a10, a11⟩ := h1
  obtain ⟨b1, b2, b3, b4, b5, b6, b7, b8, b9, b10, b11⟩ := h2
  exact ⟨a1.trans b1, a2.trans b2, a3.trans b3, a4.trans b4, a5.trans b5, a6.trans b6,
    a7.trans b7, a8.trans b8, a9.trans b9, a10.trans b10, a11.trans b11⟩

theorem loadSetting_outside (cfg : IniFile) (st : UI) (i : Nat) :
    SameOutsideSettings (loadSetting cfg st i) st := by
  cases hs : st.settings[i]? with
  | none => rw [loadSetting_none cfg st i hs]; exact sameOutside_refl st
  | some s =>
    cases hv : ini_sget cfg s.name with
    | none => rw [loadSetting_miss cfg st i s hs hv]; exact sameOutside_refl st
    | some v =>
      rw [loadSetting_hit cfg st i s v hs hv]
      exact ⟨rfl, rfl, rfl, rfl, rfl, rfl, rfl, rfl, rfl, rfl, rfl⟩

theorem loadAll_outside (cfg : IniFile) (k : Nat) (st : UI) :
    SameOutsideSettings (loadAll cfg k st) st := by
  induction k with
  | zero => exact sameOutside_refl st
  | succ k ih =>
    rw [loadAll_succ]
    exact sameOutside_trans _ _ _ (loadSetting_outside cfg _ k) ih

/-- A slot no round writes keeps its content. -/
theorem loadAll_mem_untouched (cfg : IniFile) (k : Nat) (st : UI) (p : Nat)
    (h : ∀ i, i < k → ∀ x, ¬ Writes cfg st.settings i p x) :
    (loadAll cfg k st).mem p = st.mem p := by
  induction k with
  | zero => rfl
  | succ k ih =>
    have ih1 := ih (fun i hi => h i (by omega))
    have hk := loadAll_get_ge cfg k st k (le_refl k)
    rw [loadAll_succ]
    cases hs : st.settings[k]? with
    | none => rw [loadSetting_none cfg _ k (hk.trans hs)]; exact ih1
    | some s =>
      cases hv : ini_sget cfg s.name with
      | none => rw [loadSetting_miss cfg _ k s (hk.trans hs) hv]; exact ih1
      | some v =>
        rw [loadSetting_hit cfg _ k s v (hk.trans hs) hv]
        cases hp : s.valueIdx with
        | none => simpa [poke] using ih1
        | some q =>
          have hne : p ≠ q := by
            intro e
            subst e
            exact h k (by omega) (scanU32 v) ⟨s, v, hs, hp, hv, rfl⟩
          simpa [poke, Function.update_noteq hne] using ih1

/-- A slot that some round writes, all rounds writing it the same `x`, ends as `x`. -/
theorem loadAll_mem_written (cfg : IniFile) (k : Nat) (st : UI) (p x : Nat)
    (hall : ∀ i, i < k → ∀ y, Writes cfg st.settings i p y → y = x)
    (hex : ∃ i, i < k ∧ Writes cfg st.settings i p x) :
    (loadAll cfg k st).mem p = x := by
  induction k with
  | zero =>
    obtain ⟨i, hi, _⟩ := hex
    omega
  | succ k ih =>
    have hk := loadAll_get_ge cfg k st k (le_refl k)
    have hall1 : ∀ i, i < k → ∀ y, Writes cfg st.settings i p y → y = x :=
      fun i hi => hall i (by omega)
    -- a round before `k` writes `p`, unless round `k` does
    have hprev : (¬ ∃ y, Writes cfg st.settings k p y) → (loadAll cfg k st).mem p = x := by
      intro hno
      apply ih hall1
      obtain ⟨i, hi, hw⟩ := hex
      rcases Nat.lt_or_ge i k with h | h
      · exact ⟨i, h, hw⟩
      · have e : i = k := by omega
        subst e
        exact absurd ⟨x, hw⟩ hno
    rw [loadAll_succ]
    cases hs : st.settings[k]? with
    | none =>
      rw [loadSetting_none cfg _ k (hk.trans hs)]
      apply hprev
      rintro ⟨y, s, v, h1, _⟩
      rw [hs] at h1
      cases h1
    | some s =>
      cases hv : ini_sget cfg s.name with
      | none =>
        rw [loadSetting_miss cfg _ k s (hk.trans hs) hv]
        apply hprev
        rintro ⟨y, s1, v, h1, _, h3, _⟩
        rw [hs] at h1
        cases h1
        rw [hv] at h3
        cases h3
      | some v =>
        rw [loadSetting_hit cfg _ k s v (hk.trans hs) hv]
        cases hp : s.valueIdx with
        | none =>
          simp only [poke]
          apply hprev
          rintro ⟨y, s1, v1, h1, h2, _⟩
          rw [hs] at h1
          cases h1
          rw [hp] at h2
          cases h2
        | some q =>
          by_cases e : p = q
          · subst e
            have := hall k (by omega) (scanU32 v) ⟨s, v, hs, hp, hv, rfl⟩
            simpa [poke] using this
          · simp only [poke, Function.update_noteq e]
            apply hprev
            rintro ⟨y, s1, v1, h1, h2, _⟩
            rw [hs] at h1
            cases h1
            rw [hp] at h2
            cases h2
            exact e rfl

/-- After the loop, a setting whose key is stored carries the string generated in its
round. -/
theorem loadAll_get_hit (cfg : IniFile) (k : Nat) (st : UI) (i : Nat) (s : Setting) (v : Int)
    (hi : i < k) (hs : st.settings[i]? = some s) (hv : ini_sget cfg s.name = some v) :
    (loadAll cfg k st).settings[i]?
      = some { s with
          generatedString :=
            settingText (poke (loadAll cfg i st).mem s.valueIdx (scanU32 v)) s } := by
  induction k with
  | zero => omega
  | succ k ih =>
    rw [loadAll_succ]
    rcases Nat.lt_or_ge i k with h | h
    · rw [loadSetting_get_ne cfg _ k i (by omega)]
      exact ih h
    · have e : i = k := by omega
      subst e
      have hk := (loadAll_get_ge cfg i st i (le_refl i)).trans hs
      have hlt : i < (loadAll cfg i st).settings.length := by
        rcases Nat.lt_or_ge i (loadAll cfg i st).settings.length with h | h
        · exact h
        · rw [List.getElem?_eq_none h] at hk
          cases hk
      rw [loadSetting_hit cfg _ i s v hk hv]
      simp [hlt]

/-- After the loop, a setting whose key is missing is as before. -/
theorem loadAll_get_miss (cfg : IniFile) (k : Nat) (st : UI) (i : Nat) (s : Setting)
    (hs : st.settings[i]? = some s) (hv : ini_sget cfg s.name = none) :
    (loadAll cfg k st).settings[i]? = some s := by
  induction k with
  | zero => exact hs
  | succ k ih =>
    rw [loadAll_succ]
    by_cases e : k = i
    · subst e
      rw [loadSetting_miss cfg _ k s ih hv]
      exact ih
    · rw [loadSetting_get_ne cfg _ k i e]
      exact ih

theorem settingText_congr (m1 m2 : Nat → Nat) (s : Setting)
    (h : deref m1 s.valueIdx = deref m2 s.valueIdx) : settingText m1 s = settingText m2 s := by
  unfold settingText
  rw [h]

theorem erase_get (l1 l2 : List Setting) (i : Nat) (a : Setting)
    (h : l1.map eraseString = l2.map eraseString) (ha : l1[i]? = some a) :
    ∃ b, l2[i]? = some b ∧ eraseString a = eraseString b := by
  have e : (l1.map eraseString)[i]? = (l2.map eraseString)[i]? := by rw [h]
  rw [List.getElem?_map, List.getElem?_map, ha] at e
  cases hb : l2[i]? with
  | none => rw [hb] at e; cases e
  | some b =>
    rw [hb] at e
    exact ⟨b, rfl, Option.some.inj e⟩

theorem erase_valueIdx (a b : Setting) (h : eraseString a = eraseString b) :
    a.valueIdx = b.valueIdx := by
  have e := congrArg Setting.valueIdx h
  simpa [eraseString] using e

theorem erase_name (a b : Setting) (h : eraseString a = eraseString b) : a.name = b.name := by
  have e := congrArg Setting.name h
  simpa [eraseString] using e

/-! ## Registration and saving -/

theorem uiAddSetting_eq (name : CStr) (valueIdx : Option Nat) (valuesCount : Nat)
    (strValues : List CStr) (isMeta : Bool) (st : UI) :
    uiAddSetting name valueIdx valuesCount strValues isMeta st
      = { st with settings := st.settings ++
          [{ newEntry name valueIdx valuesCount strValues isMeta with
             generatedString :=
               settingText st.mem (newEntry name valueIdx valuesCount strValues isMeta) }] } := by
  unfold uiAddSetting generateSettingString
  simp

theorem range_filterMap_get {α β : Type} (f : α → β) (l : List α) (m : Nat) :
    (List.range m).filterMap (fun i => (l[i]?).map f) = (l.take m).map f := by
  induction m with
  | zero => simp
  | succ m ih =>
    rw [List.range_succ, List.filterMap_append, ih, List.take_succ, List.map_append]
    congr 1
    cases h : l[m]? <;> simp [h]

/-- What `uiSaveSettings` writes when the flag is set and the file opens. -/
theorem uiSaveSettings_file (st : UI) (hd : st.settingsChanged = true) :
    (uiSaveSettings true st).iniFile
      = some (IniLine.header "Misc".toList :: (persisted st).map (settingLine st.mem)) := by
  unfold uiSaveSettings persisted
  simp [hd, range_filterMap_get]

/-- Looking up a written line by a name that occurs once. -/
theorem ini_sget_written (mem : Nat → Nat) (l : List Setting) (s : Setting)
    (hn : (l.map Setting.name).Nodup) (hs : s ∈ l) :
    ini_sget (l.map (settingLine mem)) s.name = some (printInt (deref mem s.valueIdx)) := by
  induction l with
  | nil => cases hs
  | cons a rest ih =>
    rw [List.map_cons, List.nodup_cons] at hn
    simp only [List.map_cons, settingLine, ini_sget]
    rcases List.mem_cons.mp hs with h | h
    · subst h
      simp
    · have hne : a.name ≠ s.name := by
        intro e
        apply hn.1
        rw [e]
        exact List.mem_map_of_mem Setting.name h
      simp only [hne, if_false]
      have := ih hn.2 h
      simpa [settingLine] using this

theorem scan_print (v : Nat) (h : v < 4294967296) : scanU32 (printInt v) = v := by
  unfold scanU32 printInt LONG_MIN LONG_MAX
  have e : v % 4294967296 = v := Nat.mod_eq_of_lt h
  rw [e]
  split_ifs <;> omega

/-- The "Exit" entry that `uiFinaliseAndLoadSettings` registers. -/
theorem metaBoundary_settings (E : Env) (st : UI) :
    (metaBoundary E st).settings = st.settings ++
      [{ name := "Exit".toList, valuesCount := E.resultClose, valueIdx := none,
         strValues := [], generatedString := "Exit".toList, meta := true }] := by
  unfold metaBoundary
  rw [uiAddSetting_eq]
  simp only [List.append_cancel_left_eq, List.cons.injEq, and_true]
  rfl

theorem metaBoundary_mem (E : Env) (st : UI) : (metaBoundary E st).mem = st.mem := by
  unfold metaBoundary
  rw [uiAddSetting_eq]

theorem metaBoundary_outside (E : Env) (st : UI) :
    (metaBoundary E st).settingsMetaStart = st.settings.length ∧
    SameOutsideSettings (metaBoundary E st) { st with settingsMetaStart := st.settings.length } := by
  unfold metaBoundary
  rw [uiAddSetting_eq]
  exact ⟨rfl, rfl, rfl, rfl, rfl, rfl, rfl, rfl, rfl, rfl, rfl, rfl⟩

/-- With a settings file, `uiFinaliseAndLoadSettings` is the boundary followed by the
load loop over the settings registered before it. -/
theorem finalise_loads (E : Env) (st : UI) (cfg : IniFile) (h : st.iniFile = some cfg) :
    uiFinaliseAndLoadSettings E st = loadAll cfg st.settings.length (metaBoundary E st) := by
  have h1 : (metaBoundary E st).iniFile = some cfg := by
    rw [(metaBoundary_outside E st).2.2.2.2.2.2.2.2.2.2.2]
    exact h
  unfold uiFinaliseAndLoadSettings
  simp only [h1, (metaBoundary_outside E st).1]

/-- Without a settings file, `uiFinaliseAndLoadSettings` is the boundary alone. -/
theorem finalise_no_file (E : Env) (st : UI) (h : st.iniFile = none) :
    uiFinaliseAndLoadSettings E st = metaBoundary E st := by
  have h1 : (metaBoundary E st).iniFile = none := by
    rw [(metaBoundary_outside E st).2.2.2.2.2.2.2.2.2.2.2]
    exact h
  unfold uiFinaliseAndLoadSettings
  simp only [h1]

/-! ## Claims on saving and loading -/

/-- C7, as stated, fails in two ways.  (1) When the settings file cannot be opened the
save writes nothing: after one confirm on "Scale" (index 1, flag set) and a save whose
`fopen` fails, the fresh collection loads nothing and "Scale" is back at 0.  (2) When two
persisted settings share a name, the load gives both the first stored line: with two
settings "Mode" at indices 0 and 1, the save writes `Mode=0`, `Mode=1` and the fresh
collection ends with the second "Mode" at 0. -/
theorem C7_counterexample_roundtrip :
    (changedUI.settingsChanged = true ∧ valueOf changedUI 0 = 1 ∧
      valueOf (uiFinaliseAndLoadSettings sampleEnv
        (freshSample (uiSaveSettings false changedUI))) 0 = 0) ∧
    (twinChangedUI.settingsChanged = true ∧ valueOf twinChangedUI 1 = 1 ∧
      valueOf (uiFinaliseAndLoadSettings sampleEnv
        (twinFresh (uiSaveSettings true twinChangedUI))) 1 = 0) := by
  refine ⟨⟨rfl, by decide, by decide⟩, ⟨rfl, by decide, by decide⟩⟩

/-- C7 (amended): when `uiSaveSettings` writes the file (flag set, file opened), the
persisted settings have pairwise distinct names and their value indices are `u32`
values, then `uiFinaliseAndLoadSettings` on a fresh collection `fr` holding the same
registrations as the persisted settings of `st` (whatever its slots contain) and finding
the written file gives every persisted setting the value index it had in `st`. -/
theorem C7_save_load_roundtrip (E : Env) (st fr : UI)
    (hdirty : st.settingsChanged = true)
    (hnames : ((persisted st).map Setting.name).Nodup)
    (hu32 : ∀ s ∈ persisted st, deref st.mem s.valueIdx < 4294967296)
    (hreg : fr.settings.map eraseString = (persisted st).map eraseString)
    (hfile : fr.iniFile = (uiSaveSettings true st).iniFile)
    (i : Nat) (hi : i < fr.settings.length) :
    valueOf (uiFinaliseAndLoadSettings E fr) i = valueOf st i := by
  have hf : fr.iniFile
      = some (IniLine.header "Misc".toList :: (persisted st).map (settingLine st.mem)) := by
    rw [hfile, uiSaveSettings_file st hdirty]
  have hrun := finalise_loads E fr _ hf
  generalize hcfg :
    (IniLine.header "Misc".toList :: (persisted st).map (settingLine st.mem)) = cfg at hrun
  have hst2 := metaBoundary_settings E fr
  have hmem := metaBoundary_mem E fr
  generalize metaBoundary E fr = st2 at hrun hst2 hmem
  have hset : ∀ j, j < fr.settings.length → st2.settings[j]? = fr.settings[j]? := by
    intro j hj
    rw [hst2]
    exact List.getElem?_append_left hj
  -- every persisted index: the fresh entry, the original entry, the stored line
  have hrow : ∀ j, j < fr.settings.length → ∃ a b, st2.settings[j]? = some a ∧
      st.settings[j]? = some b ∧ b ∈ persisted st ∧ a.valueIdx = b.valueIdx ∧
      ini_sget cfg a.name = some (printInt (deref st.mem b.valueIdx)) := by
    intro j hj
    have ha : fr.settings[j]? = some fr.settings[j] := List.getElem?_eq_getElem hj
    obtain ⟨b, hb, hab⟩ := erase_get _ _ j _ hreg ha
    have hbm : b ∈ persisted st := List.getElem?_mem hb
    have hb2 : st.settings[j]? = some b := by
      unfold persisted at hb
      rw [List.getElem?_take] at hb
      split_ifs at hb
      exact hb
    refine ⟨fr.settings[j], b, (hset j hj).trans ha, hb2, hbm, erase_valueIdx _ _ hab, ?_⟩
    rw [erase_name _ _ hab, ← hcfg]
    simp only [ini_sget]
    exact ini_sget_written st.mem (persisted st) b hnames hbm
  obtain ⟨a, b, ha, hb, hbm, hab, hlook⟩ := hrow i hi
  -- the entry at `i` after the loop still points to the same slot
  have hfin : ∃ a2, (loadAll cfg fr.settings.length st2).settings[i]? = some a2 ∧
      a2.valueIdx = b.valueIdx := by
    obtain ⟨a2, h1, h2⟩ := erase_get st2.settings (loadAll cfg fr.settings.length st2).settings
      i a (loadAll_erase cfg fr.settings.length st2).symm ha
    exact ⟨a2, h1, ((erase_valueIdx _ _ h2).symm.trans hab)⟩
  obtain ⟨a2, ha2, hp2⟩ := hfin
  rw [hrun]
  unfold valueOf
  rw [ha2, hb]
  simp only [hp2]
  cases hp : b.valueIdx with
  | none => rfl
  | some p =>
    simp only [deref]
    apply loadAll_mem_written cfg fr.settings.length st2 p (st.mem p)
    · rintro j hj y ⟨s, v, h1, h2, h3, h4⟩
      obtain ⟨a3, b3, ha3, _, hbm3, hab3, hlook3⟩ := hrow j hj
      rw [ha3] at h1
      cases h1
      rw [hlook3] at h3
      cases h3
      have hp3 : b3.valueIdx = some p := hab3.symm.trans h2
      have hu := hu32 b3 hbm3
      rw [hp3] at hu h4
      simp only [deref] at hu h4
      rw [← h4, scan_print _ hu]
    · refine ⟨i, hi, a, _, ha, hab.trans hp, hlook, ?_⟩
      have hu := hu32 b hbm
      rw [hp] at hu ⊢
      simp only [deref] at hu ⊢
      exact scan_print _ hu

theorem C7_save_load_roundtrip_witness :
    valueOf (uiFinaliseAndLoadSettings sampleEnv (freshSample (uiSaveSettings true changedUI))) 0
      = valueOf changedUI 0 :=
  C7_save_load_roundtrip sampleEnv changedUI (freshSample (uiSaveSettings true changedUI))
    rfl (by decide) (by decide) rfl rfl 0 (by decide)

/-! ## Display strings -/

theorem getElem?_lt {α : Type} (l : List α) (i : Nat) (a : α) (h : l[i]? = some a) :
    i < l.length := by
  rcases Nat.lt_or_ge i l.length with h1 | h1
  · exact h1
  · rw [List.getElem?_eq_none h1] at h
    cases h

theorem fits_index (s : Setting) (v : Nat) (h : Fits s v) (hm : s.meta = false) :
    v < s.strValues.length := by
  obtain ⟨text, h1, _⟩ := h
  simp only [displayFormat, hm, Bool.false_eq_true, if_false] at h1
  cases hv : s.strValues[v]? with
  | none => rw [hv] at h1; cases h1
  | some x => exact getElem?_lt _ _ _ hv

theorem settingText_fits (mem : Nat → Nat) (s : Setting) (h : Fits s (deref mem s.valueIdx)) :
    displayFormat s (deref mem s.valueIdx) = some (settingText mem s) := by
  obtain ⟨text, h1, h2⟩ := h
  rw [h1]
  unfold settingText
  cases hm : s.meta with
  | false =>
    simp only [displayFormat, hm, Bool.false_eq_true, if_false] at h1 h2
    cases hv : s.strValues[deref mem s.valueIdx]? with
    | none => rw [hv] at h1; cases h1
    | some x =>
      rw [hv] at h1
      have ht : text = s.name ++ ": ".toList ++ x := (Option.some.inj h1).symm
      have hx : s.strValues.getD (deref mem s.valueIdx) [] = x := by
        rw [List.getD_eq_getElem?_getD, hv]
        rfl
      simp only [Bool.not_false, if_true, snprintf, hx]
      rw [ht] at h2 ⊢
      exact congrArg some (List.take_of_length_le (by simpa using h2)).symm
  | true =>
    simp only [displayFormat, hm, if_true] at h1 h2
    have ht : text = s.name := (Option.some.inj h1).symm
    simp only [Bool.not_true, Bool.false_eq_true, if_false, strcpy_safe]
    rw [ht] at h2 ⊢
    exact congrArg some (List.take_of_length_le (by simpa using h2)).symm

theorem stringReadDefined_normal (mem : Nat → Nat) (s : Setting) (p : Nat)
    (hp : s.valueIdx = some p) (hlt : mem p < s.strValues.length) :
    stringReadDefined mem s = true := by
  simp [stringReadDefined, hp, hlt]

theorem moveCursor_settings (E : Env) (keysDown : Nat) (state : UIState) (st : UI) :
    (moveCursor E keysDown state st).settings = st.settings ∧
    (moveCursor E keysDown state st).mem = st.mem := ⟨rfl, rfl⟩

/-- The display string of the selected normal setting after a confirm/cancel frame. -/
theorem select_display (E : Env) (keysDown : Nat) (st : UI) (i q : Nat) (s : Setting)
    (hstate : uiGetState st = UIState.stateSettings)
    (hX : pressed keysDown E.KEY_X = false)
    (hAB : (pressed keysDown E.KEY_A || pressed keysDown E.KEY_B) = true)
    (hcur : (moveCursor E keysDown UIState.stateSettings st).cursor = (i : Int))
    (hs : st.settings[i]? = some s) (hm : s.meta = false) (hq : s.valueIdx = some q)
    (h1 : 1 ≤ s.valuesCount) (hfit : ∀ w, w < s.valuesCount → Fits s w) :
    ∃ e, (uiLoop E keysDown st).2.settings[i]? = some e ∧ eraseString e = eraseString s ∧
      stringReadDefined (uiLoop E keysDown st).2.mem e = true ∧
      displayFormat e (valueOf (uiLoop E keysDown st).2 i) = some e.generatedString := by
  have hlt := getElem?_lt _ _ _ hs
  have hset : (moveCursor E keysDown UIState.stateSettings st).settings = st.settings := rfl
  have hmem : (moveCursor E keysDown UIState.stateSettings st).mem = st.mem := rfl
  rw [uiLoop_settings E keysDown st hstate hX hAB,
    selectSetting_normal E keysDown _ i s hcur hs hm, hset, hmem]
  have hnew : Fits s (nextValue (pressed keysDown E.KEY_A) s.valuesCount (st.mem q)) :=
    hfit _ (nextValue_lt _ _ _ h1)
  have hd : deref (poke st.mem s.valueIdx
      (nextValue (pressed keysDown E.KEY_A) s.valuesCount (deref st.mem s.valueIdx))) s.valueIdx
      = nextValue (pressed keysDown E.KEY_A) s.valuesCount (st.mem q) := by
    simp [hq, poke, deref]
  refine ⟨_, List.getElem?_set_self hlt, rfl, ?_, ?_⟩
  · apply stringReadDefined_normal _ _ q hq
    have := fits_index s _ hnew hm
    simpa [hq, poke, deref] using this
  · simp only [valueOf, List.getElem?_set_self hlt]
    exact settingText_fits _ s (by rw [hd]; exact hnew)

/-- Rounds of the load loop over the settings before the boundary read the entries that
were registered. -/
theorem metaBoundary_get (E : Env) (st : UI) (k : Nat) (hk : k < st.settings.length) :
    (metaBoundary E st).settings[k]? = st.settings[k]? := by
  rw [metaBoundary_settings]
  exact List.getElem?_append_left hk

/-- The display string of a setting after its stored value was loaded, when no other
round of the load writes its slot. -/
theorem load_display (E : Env) (st : UI) (cfg : IniFile) (j p : Nat) (t : Setting) (v : Int)
    (hcfg : st.iniFile = some cfg) (ht : st.settings[j]? = some t)
    (hp : t.valueIdx = some p) (hv : ini_sget cfg t.name = some v)
    (hown : ∀ k, k < st.settings.length → k ≠ j → ∀ y, ¬ Writes cfg st.settings k p y)
    (hfit : Fits t (scanU32 v)) :
    ∃ e, (uiFinaliseAndLoadSettings E st).settings[j]? = some e ∧
      eraseString e = eraseString t ∧
      valueOf (uiFinaliseAndLoadSettings E st) j = scanU32 v ∧
      stringReadDefined (uiFinaliseAndLoadSettings E st).mem e = true ∧
      displayFormat e (valueOf (uiFinaliseAndLoadSettings E st) j)
        = some e.generatedString := by
  have hj := getElem?_lt _ _ _ ht
  have ht2 : (metaBoundary E st).settings[j]? = some t := (metaBoundary_get E st j hj).trans ht
  rw [finalise_loads E st cfg hcfg]
  have hget := loadAll_get_hit cfg st.settings.length (metaBoundary E st) j t v hj ht2 hv
  have hval : (loadAll cfg st.settings.length (metaBoundary E st)).mem p = scanU32 v := by
    apply loadAll_mem_written
    · rintro k hk y ⟨a, w, h1, h2, h3, h4⟩
      by_cases e : k = j
      · subst e
        rw [ht2] at h1
        cases h1
        rw [hv] at h3
        cases h3
        exact h4.symm
      · exact absurd ⟨a, w, (metaBoundary_get E st k hk).symm.trans h1, h2, h3, h4⟩
          (hown k hk e y)
    · exact ⟨j, hj, t, v, ht2, hp, hv, rfl⟩
  have hvalue : valueOf (loadAll cfg st.settings.length (metaBoundary E st)) j = scanU32 v := by
    simp only [valueOf, hget, hp, deref]
    exact hval
  have e1 : deref (poke (loadAll cfg j (metaBoundary E st)).mem t.valueIdx (scanU32 v)) t.valueIdx
      = scanU32 v := by
    simp [hp, poke, deref]
  refine ⟨_, hget, rfl, hvalue, ?_, ?_⟩
  · cases hm : t.meta with
    | true => simp [stringReadDefined, hm]
    | false =>
      have hlt := fits_index t _ hfit hm
      simp [stringReadDefined, hp, hval, hlt]
  · rw [hvalue]
    have := settingText_fits (poke (loadAll cfg j (metaBoundary E st)).mem t.valueIdx (scanU32 v)) t
      (by rw [e1]; exact hfit)
    rw [e1] at this
    exact this

/-- The display string of the entry that `uiAddSetting` registers. -/
theorem add_display (name : CStr) (valueIdx : Option Nat) (valuesCount : Nat)
    (strValues : List CStr) (isMeta : Bool) (st : UI)
    (hfit : Fits (newEntry name valueIdx valuesCount strValues isMeta) (deref st.mem valueIdx)) :
    ∃ e, (uiAddSetting name valueIdx valuesCount strValues isMeta st).settings[st.settings.length]?
        = some e ∧
      e.name = name ∧ e.meta = isMeta ∧ e.strValues = strValues ∧ e.valueIdx = valueIdx ∧
      displayFormat e
        (valueOf (uiAddSetting name valueIdx valuesCount strValues isMeta st)
          st.settings.length) = some e.generatedString := by
  rw [uiAddSetting_eq]
  refine ⟨{ newEntry name valueIdx valuesCount strValues isMeta with
      generatedString :=
        settingText st.mem (newEntry name valueIdx valuesCount strValues isMeta) },
    by simp, rfl, rfl, rfl, rfl, ?_⟩
  simp only [valueOf, List.getElem?_concat_length]
  exact settingText_fits st.mem _ hfit

/-! ## Claims on display strings -/

/-- C8, as stated, fails in two ways.  (1) A normal setting whose display text is 255
bytes long fits the 256-byte buffer, yet `snprintf` is given the size 255 and stores
only its first 254 bytes.  (2) Only the setting acted upon gets a new string: with "A"
and "B" bound to one slot at value 0 and the file storing `A=0`, `B=1`, the load changes
the value of "A" to 1 and leaves its string at "A: Off", not "A: On".  In both, every
read of `generateSettingString` is within `strValues`. -/
theorem C8_counterexample_display :
    (∃ s text, longNameUI.settings[0]? = some s ∧ s.meta = false ∧
      stringReadDefined longNameUI.mem s = true ∧
      displayFormat s (valueOf longNameUI 0) = some text ∧
      text.length + 1 = 256 ∧
      s.generatedString.length = 254 ∧
      s.generatedString ≠ text) ∧
    (∃ s cfg, (uiFinaliseAndLoadSettings sampleEnv sharedSlotUI).settings[0]? = some s ∧
      s.meta = false ∧
      sharedSlotUI.iniFile = some cfg ∧
      sharedSlotUI.settings.all (loadRoundDefined cfg) = true ∧
      stringReadDefined (uiFinaliseAndLoadSettings sampleEnv sharedSlotUI).mem s = true ∧
      valueOf sharedSlotUI 0 = 0 ∧
      valueOf (uiFinaliseAndLoadSettings sampleEnv sharedSlotUI) 0 = 1 ∧
      s.generatedString = "A: Off".toList ∧
      displayFormat s (valueOf (uiFinaliseAndLoadSettings sampleEnv sharedSlotUI) 0)
        = some "A: On".toList) := by
  constructor
  · refine ⟨_, List.replicate 251 'n' ++ ": ".toList ++ "1x".toList, rfl, rfl, ?_, ?_, ?_, ?_, ?_⟩
    · decide
    · set_option maxRecDepth 100000 in decide
    · set_option maxRecDepth 100000 in decide
    · set_option maxRecDepth 100000 in decide
    · intro h
      have := congrArg List.length h
      revert this
      set_option maxRecDepth 100000 in decide
  · exact ⟨_, _, rfl, rfl, rfl, by decide, by decide, by decide, by decide, by decide,
      by decide⟩

/-- C8 (amended): whenever the execution is defined in C (there is room in the settings
array, a normal setting has a non-NULL `valueIdx` and a value index within
`allowedValues`, every round of the load stores through a non-NULL `valueIdx` an index
within `allowedValues`) and the text is at most 254 bytes (normal) or 255 bytes (meta),
the display string of the setting acted upon equals `"<name>: <allowedValues[value]>"`
for a normal setting and `"<name>"` for a meta setting: after `uiAddSetting` for the new
entry; after a confirm/cancel frame for the highlighted normal setting; after
`uiFinaliseAndLoadSettings` for a setting whose key is stored and whose slot no other
stored setting shares.  With "Scale" over {1x,2x,3x} at value 0, three confirm frames at
index 0 give 2x, 3x, 1x and the string "Scale: 1x" after the third. -/
theorem C8_display_string (E : Env) (stA stB stC : UI)
    (name : CStr) (valueIdx : Option Nat) (valuesCount : Nat) (strValues : List CStr)
    (isMeta : Bool) (keysDown i q : Nat) (s : Setting)
    (cfg : IniFile) (j p : Nat) (t : Setting) (v : Int) :
    (stA.settings.length < SETTINGS_MAX →
      stringReadDefined stA.mem (newEntry name valueIdx valuesCount strValues isMeta) = true →
      Fits (newEntry name valueIdx valuesCount strValues isMeta) (deref stA.mem valueIdx) →
      ∃ e, (uiAddSetting name valueIdx valuesCount strValues isMeta stA).settings[
          stA.settings.length]? = some e ∧
        e.name = name ∧ e.meta = isMeta ∧ e.strValues = strValues ∧ e.valueIdx = valueIdx ∧
        displayFormat e
          (valueOf (uiAddSetting name valueIdx valuesCount strValues isMeta stA)
            stA.settings.length) = some e.generatedString) ∧
    (uiGetState stB = UIState.stateSettings →
      pressed keysDown E.KEY_X = false →
      (pressed keysDown E.KEY_A || pressed keysDown E.KEY_B) = true →
      (moveCursor E keysDown UIState.stateSettings stB).cursor = (i : Int) →
      stB.settings[i]? = some s → s.meta = false → s.valueIdx = some q →
      1 ≤ s.valuesCount → (∀ w, w < s.valuesCount → Fits s w) →
      ∃ e, (uiLoop E keysDown stB).2.settings[i]? = some e ∧ eraseString e = eraseString s ∧
        stringReadDefined (uiLoop E keysDown stB).2.mem e = true ∧
        displayFormat e (valueOf (uiLoop E keysDown stB).2 i) = some e.generatedString) ∧
    (stC.settings.length < SETTINGS_MAX →
      stC.settings.all (loadRoundDefined cfg) = true →
      stC.iniFile = some cfg → stC.settings[j]? = some t → t.valueIdx = some p →
      ini_sget cfg t.name = some v →
      (∀ k, k < stC.settings.length → k ≠ j → ∀ y, ¬ Writes cfg stC.settings k p y) →
      Fits t (scanU32 v) →
      ∃ e, (uiFinaliseAndLoadSettings E stC).settings[j]? = some e ∧
        eraseString e = eraseString t ∧
        valueOf (uiFinaliseAndLoadSettings E stC) j = scanU32 v ∧
        stringReadDefined (uiFinaliseAndLoadSettings E stC).mem e = true ∧
        displayFormat e (valueOf (uiFinaliseAndLoadSettings E stC) j)
          = some e.generatedString) ∧
    (scaleValues[valueOf (frames sampleEnv 1 1 sampleSettingsUI) 0]? = some "2x".toList ∧
      scaleValues[valueOf (frames sampleEnv 1 2 sampleSettingsUI) 0]? = some "3x".toList ∧
      scaleValues[valueOf (frames sampleEnv 1 3 sampleSettingsUI) 0]? = some "1x".toList ∧
      ((frames sampleEnv 1 3 sampleSettingsUI).settings[0]?).map Setting.generatedString
        = some "Scale: 1x".toList) := by
  refine ⟨fun _ _ hfit => add_display name valueIdx valuesCount strValues isMeta stA hfit,
    ?_, ?_, ?_⟩
  · intro h1 h2 h3 h4 h5 h6 h7 h8 h9
    exact select_display E keysDown stB i q s h1 h2 h3 h4 h5 h6 h7 h8 h9
  · intro _ _ h1 h2 h3 h4 h5 h6
    exact load_display E stC cfg j p t v h1 h2 h3 h4 h5 h6
  · refine ⟨by decide, by decide, by decide, by decide⟩

theorem C8_display_string_witness :
    (∃ e, (uiAddSetting "Scale".toList (some 0) 3 scaleValues false startUI).settings[
        startUI.settings.length]? = some e ∧
      e.name = "Scale".toList ∧ e.meta = false ∧ e.strValues = scaleValues ∧
      e.valueIdx = some 0 ∧
      displayFormat e
        (valueOf (uiAddSetting "Scale".toList (some 0) 3 scaleValues false startUI)
          startUI.settings.length) = some e.generatedString) ∧
    (∃ e, (uiLoop sampleEnv 1 sampleSettingsUI).2.settings[0]? = some e ∧
      eraseString e = eraseString scaleEntry ∧
      stringReadDefined (uiLoop sampleEnv 1 sampleSettingsUI).2.mem e = true ∧
      displayFormat e (valueOf (uiLoop sampleEnv 1 sampleSettingsUI).2 0)
        = some e.generatedString) ∧
    (∃ e, (uiFinaliseAndLoadSettings sampleEnv storedScaleUI).settings[0]? = some e ∧
      eraseString e = eraseString scaleEntry ∧
      valueOf (uiFinaliseAndLoadSettings sampleEnv storedScaleUI) 0 = scanU32 2 ∧
      stringReadDefined (uiFinaliseAndLoadSettings sampleEnv storedScaleUI).mem e = true ∧
      displayFormat e (valueOf (uiFinaliseAndLoadSettings sampleEnv storedScaleUI) 0)
        = some e.generatedString) :=
  have h := C8_display_string sampleEnv startUI sampleSettingsUI storedScaleUI
    "Scale".toList (some 0) 3 scaleValues false 1 0 0 scaleEntry
    [IniLine.header "misc".toList, IniLine.keyValue "Scale".toList 2] 0 0 scaleEntry 2
  have hdefA : stringReadDefined startUI.mem
      (newEntry "Scale".toList (some 0) 3 scaleValues false) = true := by decide
  have hfitA : Fits (newEntry "Scale".toList (some 0) 3 scaleValues false)
      (deref startUI.mem (some 0)) := ⟨"Scale: 1x".toList, by decide, by decide⟩
  have hfitB : ∀ w, w < scaleEntry.valuesCount → Fits scaleEntry w := by
    intro w hw
    have h3 : w < 3 := hw
    have hc : w = 0 ∨ w = 1 ∨ w = 2 := by omega
    rcases hc with e | e | e <;> subst e
    · exact ⟨"Scale: 1x".toList, by decide, by decide⟩
    · exact ⟨"Scale: 2x".toList, by decide, by decide⟩
    · exact ⟨"Scale: 3x".toList, by decide, by decide⟩
  have hown : ∀ k, k < storedScaleUI.settings.length → k ≠ 0 → ∀ y,
      ¬ Writes [IniLine.header "misc".toList, IniLine.keyValue "Scale".toList 2]
        storedScaleUI.settings k 0 y := by
    rintro k hk hne y ⟨a, w, h1, h2, _⟩
    have hlen : storedScaleUI.settings.length = 2 := rfl
    have e : k = 1 := by omega
    subst e
    have h1b : storedScaleUI.settings[1]? = some a := h1
    have hv : (storedScaleUI.settings[1]?).map Setting.valueIdx = some (some 1) := rfl
    rw [h1b] at hv
    simp only [Option.map_some', Option.some.injEq] at hv
    rw [h2] at hv
    cases hv
  have hfitC : Fits scaleEntry (scanU32 2) := ⟨"Scale: 3x".toList, by decide, by decide⟩
  ⟨h.1 (by decide) hdefA hfitA,
   h.2.1 rfl (by decide) (by decide) rfl rfl rfl rfl (by decide) hfitB,
   h.2.2.1 (by decide) (by decide) rfl rfl rfl rfl hown hfitC⟩

/-! ## Claims on meta settings -/

/-- The entry at the meta boundary after `uiFinaliseAndLoadSettings`. -/
theorem finalise_exit_entry (E : Env) (st0 : UI) :
    (uiFinaliseAndLoadSettings E st0).settingsMetaStart = st0.settings.length ∧
    (uiFinaliseAndLoadSettings E st0).settings[st0.settings.length]?
      = some { name := "Exit".toList, valuesCount := E.resultClose, valueIdx := none,
               strValues := [], generatedString := "Exit".toList, meta := true } := by
  have hb : (metaBoundary E st0).settings[st0.settings.length]?
      = some { name := "Exit".toList, valuesCount := E.resultClose, valueIdx := none,
               strValues := [], generatedString := "Exit".toList, meta := true } := by
    rw [metaBoundary_settings]
    simp
  cases hf : st0.iniFile with
  | none =>
    rw [finalise_no_file E st0 hf]
    exact ⟨(metaBoundary_outside E st0).1, hb⟩
  | some cfg =>
    rw [finalise_loads E st0 cfg hf]
    refine ⟨?_, ?_⟩
    · rw [(loadAll_outside cfg _ _).2.2.2.2.2.1]
      exact (metaBoundary_outside E st0).1
    · rw [loadAll_get_ge cfg _ _ _ (le_refl _)]
      exact hb

/-- C9: in the Settings state, without quit, a confirm or cancel frame on a highlighted
meta setting returns that setting's `valuesCount` as the result and leaves the state as
the navigation left it: no value slot, no setting or display string and not the dirty
flag changes.  The "Exit" entry registered by `uiFinaliseAndLoadSettings` sits at index
`settingsMetaStart`, the number of settings registered before the call, and a frame that
selects it returns `resultClose`. -/
theorem C9_meta_selection (E : Env) (keysDown : Nat) (st st0 : UI) (i : Nat) (s : Setting)
    (hstate : uiGetState st = UIState.stateSettings)
    (hX : pressed keysDown E.KEY_X = false)
    (hAB : (pressed keysDown E.KEY_A || pressed keysDown E.KEY_B) = true) :
    ((moveCursor E keysDown UIState.stateSettings st).cursor = (i : Int) →
      st.settings[i]? = some s → s.meta = true →
      (uiLoop E keysDown st).1 = s.valuesCount ∧
      (uiLoop E keysDown st).2 = moveCursor E keysDown UIState.stateSettings st ∧
      (uiLoop E keysDown st).2.settings = st.settings ∧
      (uiLoop E keysDown st).2.mem = st.mem ∧
      (uiLoop E keysDown st).2.settingsChanged = st.settingsChanged) ∧
    ((uiFinaliseAndLoadSettings E st0).settingsMetaStart = st0.settings.length ∧
      ∃ e, (uiFinaliseAndLoadSettings E st0).settings[
          (uiFinaliseAndLoadSettings E st0).settingsMetaStart]? = some e ∧
        e.name = "Exit".toList ∧ e.meta = true ∧ e.valuesCount = E.resultClose ∧
        e.generatedString = "Exit".toList) ∧
    (st.settings = (uiFinaliseAndLoadSettings E st0).settings →
      (moveCursor E keysDown UIState.stateSettings st).cursor
        = ((uiFinaliseAndLoadSettings E st0).settingsMetaStart : Int) →
      (uiLoop E keysDown st).1 = E.resultClose) := by
  have hexit := finalise_exit_entry E st0
  refine ⟨?_, ⟨hexit.1, _, by rw [hexit.1]; exact hexit.2, rfl, rfl, rfl, rfl⟩, ?_⟩
  · intro hcur hs hm
    rw [uiLoop_settings E keysDown st hstate hX hAB,
      selectSetting_meta E keysDown _ i s hcur hs hm]
    exact ⟨rfl, rfl, rfl, rfl, rfl⟩
  · intro hset hcur
    rw [hexit.1] at hcur
    have hs : (moveCursor E keysDown UIState.stateSettings st).settings[st0.settings.length]?
        = some { name := "Exit".toList, valuesCount := E.resultClose, valueIdx := none,
                 strValues := [], generatedString := "Exit".toList, meta := true } := by
      rw [(moveCursor_settings E keysDown _ st).1, hset]
      exact hexit.2
    rw [uiLoop_settings E keysDown st hstate hX hAB,
      selectSetting_meta E keysDown _ _ _ hcur hs rfl]

theorem C9_meta_selection_witness :
    ((uiLoop sampleEnv 16385 sampleSettingsUI).1 = exitEntry.valuesCount ∧
      (uiLoop sampleEnv 16385 sampleSettingsUI).2
        = moveCursor sampleEnv 16385 UIState.stateSettings sampleSettingsUI ∧
      (uiLoop sampleEnv 16385 sampleSettingsUI).2.settings = sampleSettingsUI.settings ∧
      (uiLoop sampleEnv 16385 sampleSettingsUI).2.mem = sampleSettingsUI.mem ∧
      (uiLoop sampleEnv 16385 sampleSettingsUI).2.settingsChanged
        = sampleSettingsUI.settingsChanged) ∧
    (uiLoop sampleEnv 16385 sampleSettingsUI).1 = sampleEnv.resultClose :=
  have h := C9_meta_selection sampleEnv 16385 sampleSettingsUI (freshSample startUI) 2
    exitEntry rfl (by decide) (by decide)
  ⟨h.1 (by decide) rfl rfl, h.2.2 rfl (by decide)⟩

/-! ## Claims on the file browser -/

/-- In the FileSelect state, without quit and with confirm or cancel, the frame is the
navigation followed by the file branch of the handler. -/
theorem uiLoop_fileselect (E : Env) (keysDown : Nat) (st : UI)
    (hstate : uiGetState st = UIState.stateFileselect)
    (hX : pressed keysDown E.KEY_X = false)
    (hAB : (pressed keysDown E.KEY_A || pressed keysDown E.KEY_B) = true) :
    uiLoop E keysDown st
      = selectFile E keysDown (moveCursor E keysDown UIState.stateFileselect st) := by
  unfold uiLoop
  simp [hstate, hX, hAB]

/-- The file branch on an entry other than ".." whose candidate path fits the path
buffer and is not a directory. -/
theorem selectFile_file (E : Env) (keysDown : Nat) (st : UI) (entry : CStr)
    (hB : pressed keysDown E.KEY_B = false)
    (hentry : atIndex st.filenames st.cursor = some entry)
    (hdots : entry ≠ "..".toList)
    (hlen : (st.currentDirectory ++ "/".toList ++ entry).length < E.PATH_LENGTH)
    (hdir : E.isDirectory (st.currentDirectory ++ "/".toList ++ entry) = false) :
    selectFile E keysDown st
      = (E.resultSelectedFile,
          { st with selectedPath := st.currentDirectory ++ "/".toList ++ entry }) := by
  have hfit : List.take (E.PATH_LENGTH - 1) (st.currentDirectory ++ "/".toList ++ entry)
      = st.currentDirectory ++ "/".toList ++ entry :=
    List.take_of_length_le (by omega)
  unfold selectFile
  simp only [hB, Bool.false_eq_true, if_false, hentry, Option.getD_some, hdots, snprintf,
    strcpy_safe, hfit, hdir]

/-- C10, as stated, fails for long paths: with `PATH_LENGTH = 512`, a current directory
of 300 bytes and a highlighted file name of 250 bytes, the candidate path has 551 bytes
and is not a directory; the frame returns the file-selected result, but the path handed
out by `uiGetSelectedFile`, even into a buffer of 1024 bytes, is the 511-byte prefix
that `snprintf` kept, not the candidate. -/
theorem C10_counterexample_long_path :
    uiGetState deepDirUI = UIState.stateFileselect ∧
    atIndex deepDirUI.filenames deepDirUI.cursor = some (List.replicate 250 'f') ∧
    sampleEnv.isDirectory
      (deepDirUI.currentDirectory ++ "/".toList ++ List.replicate 250 'f') = false ∧
    (deepDirUI.currentDirectory ++ "/".toList ++ List.replicate 250 'f').length = 551 ∧
    (uiLoop sampleEnv 1 deepDirUI).1 = sampleEnv.resultSelectedFile ∧
    (uiGetSelectedFile 1024 (uiLoop sampleEnv 1 deepDirUI).2).length = 511 ∧
    uiGetSelectedFile 1024 (uiLoop sampleEnv 1 deepDirUI).2
      ≠ deepDirUI.currentDirectory ++ "/".toList ++ List.replicate 250 'f' := by
  have h551 : (deepDirUI.currentDirectory ++ "/".toList ++ List.replicate 250 'f').length
      = 551 := by
    set_option maxRecDepth 100000 in decide
  have h511 : (uiGetSelectedFile 1024 (uiLoop sampleEnv 1 deepDirUI).2).length = 511 := by
    set_option maxRecDepth 100000 in decide
  refine ⟨rfl, rfl, ?_, h551, ?_, h511, ?_⟩
  · set_option maxRecDepth 100000 in decide
  · set_option maxRecDepth 100000 in decide
  · intro h
    have e := congrArg List.length h
    rw [h511, h551] at e
    exact absurd e (by decide)

/-- C10 (amended): in the FileSelect state, when confirm is pressed without cancel or
quit on a highlighted entry other than "..", the candidate path
`currentDirectory + "/" + entry` is not a directory, and the candidate is shorter than
`PATH_LENGTH` and than the caller's buffer, `uiLoop` returns the file-selected result,
`uiGetSelectedFile` yields exactly the candidate, and `currentDirectory` and the listing
are unchanged.  For `currentDirectory = "/roms/gba"` and the entry "game.gba" the
selected path is "/roms/gba/game.gba". -/
theorem C10_select_file (E : Env) (keysDown outLength : Nat) (st : UI) (entry : CStr)
    (hstate : uiGetState st = UIState.stateFileselect)
    (hA : pressed keysDown E.KEY_A = true)
    (hB : pressed keysDown E.KEY_B = false)
    (hX : pressed keysDown E.KEY_X = false)
    (hentry : atIndex st.filenames (moveCursor E keysDown UIState.stateFileselect st).cursor
      = some entry)
    (hdots : entry ≠ "..".toList)
    (hdir : E.isDirectory (st.currentDirectory ++ "/".toList ++ entry) = false)
    (hlen : (st.currentDirectory ++ "/".toList ++ entry).length < E.PATH_LENGTH)
    (hout : (st.currentDirectory ++ "/".toList ++ entry).length < outLength) :
    ((uiLoop E keysDown st).1 = E.resultSelectedFile ∧
      uiGetSelectedFile outLength (uiLoop E keysDown st).2
        = st.currentDirectory ++ "/".toList ++ entry ∧
      (uiLoop E keysDown st).2.currentDirectory = st.currentDirectory ∧
      (uiLoop E keysDown st).2.filenames = st.filenames) ∧
    (gbaDirUI.currentDirectory = "/roms/gba".toList ∧
      atIndex gbaDirUI.filenames
        (moveCursor sampleEnv 32769 UIState.stateFileselect gbaDirUI).cursor
        = some "game.gba".toList ∧
      (uiLoop sampleEnv 32769 gbaDirUI).1 = sampleEnv.resultSelectedFile ∧
      uiGetSelectedFile 512 (uiLoop sampleEnv 32769 gbaDirUI).2
        = "/roms/gba/game.gba".toList) := by
  constructor
  · rw [uiLoop_fileselect E keysDown st hstate hX (by simp [hA]),
      selectFile_file E keysDown _ entry hB hentry hdots hlen hdir]
    refine ⟨rfl, ?_, rfl, rfl⟩
    simp only [uiGetSelectedFile, strcpy_safe]
    exact List.take_of_length_le (by
      have : (moveCursor E keysDown UIState.stateFileselect st).currentDirectory
          = st.currentDirectory := rfl
      rw [this]
      omega)
  · exact ⟨by decide, by decide, by decide, by decide⟩

theorem C10_select_file_witness :
    (uiLoop sampleEnv 32769 gbaDirUI).1 = sampleEnv.resultSelectedFile ∧
    uiGetSelectedFile 512 (uiLoop sampleEnv 32769 gbaDirUI).2
      = gbaDirUI.currentDirectory ++ "/".toList ++ "game.gba".toList ∧
    (uiLoop sampleEnv 32769 gbaDirUI).2.currentDirectory = gbaDirUI.currentDirectory ∧
    (uiLoop sampleEnv 32769 gbaDirUI).2.filenames = gbaDirUI.filenames :=
  (C10_select_file sampleEnv 32769 512 gbaDirUI "game.gba".toList (by decide) (by decide)
    (by decide) (by decide) (by decide) (by decide) (by decide) (by decide) (by decide)).1

/-! ## Claims on the frame dispatcher -/

/-- C19: every call of `uiPushState` and of `uiPopState` leaves cursor = 0 and
scroll = 0, whatever their prior values and whatever the depth of the stack, so also
for a push onto a full stack and a pop of an empty one. -/
theorem C19_push_pop_reset (state : UIState) (st : UI) :
    (uiPushState state st).cursor = 0 ∧ (uiPushState state st).scroll = 0 ∧
    (uiPopState st).cursor = 0 ∧ (uiPopState st).scroll = 0 :=
  ⟨rfl, rfl, rfl, rfl⟩

/-- C20: for every input bitmask the navigation delta of `uiLoop` is decided by the
precedence right (+5) over left (-5) over up (-1) over down (+1), is 0 when no
direction bit is set, and so is always one of 0, +1, -1, -5, +5. -/
theorem C20_scroll_amount (E : Env) (keysDown : Nat) :
    scrollAmountOf E keysDown
      = (if pressed keysDown E.KEY_RIGHT then 5
         else if pressed keysDown E.KEY_LEFT then -5
         else if pressed keysDown E.KEY_UP then -1
         else if pressed keysDown E.KEY_DOWN then 1
         else 0) ∧
    (scrollAmountOf E keysDown = 0 ∨ scrollAmountOf E keysDown = 1 ∨
      scrollAmountOf E keysDown = -1 ∨ scrollAmountOf E keysDown = -5 ∨
      scrollAmountOf E keysDown = 5) := by
  unfold scrollAmountOf
  cases pressed keysDown E.KEY_RIGHT <;> cases pressed keysDown E.KEY_LEFT <;>
    cases pressed keysDown E.KEY_UP <;> cases pressed keysDown E.KEY_DOWN <;> simp

/-- In the Paused state, without quit and with confirm or cancel, the frame is the
navigation followed by the pause branch of the handler. -/
theorem uiLoop_paused (E : Env) (keysDown : Nat) (st : UI)
    (hstate : uiGetState st = UIState.statePaused)
    (hX : pressed keysDown E.KEY_X = false)
    (hAB : (pressed keysDown E.KEY_A || pressed keysDown E.KEY_B) = true) :
    uiLoop E keysDown st
      = selectPaused E keysDown (moveCursor E keysDown UIState.statePaused st) := by
  unfold uiLoop
  simp [hstate, hX, hAB]

/-- C12: in the Paused state with no quit input, confirm without cancel on the
highlighted row 0, 1, 2, 3 returns unpause, load-state, save-state, close, and cancel
returns unpause at every cursor position, also when confirm is pressed with it. -/
theorem C12_pause_menu (E : Env) (keysDown : Nat) (st : UI)
    (hstate : uiGetState st = UIState.statePaused)
    (hX : pressed keysDown E.KEY_X = false) :
    (pressed keysDown E.KEY_A = true → pressed keysDown E.KEY_B = false →
      ((moveCursor E keysDown UIState.statePaused st).cursor = 0 →
        (uiLoop E keysDown st).1 = E.resultUnpause) ∧
      ((moveCursor E keysDown UIState.statePaused st).cursor = 1 →
        (uiLoop E keysDown st).1 = E.resultLoadState) ∧
      ((moveCursor E keysDown UIState.statePaused st).cursor = 2 →
        (uiLoop E keysDown st).1 = E.resultSaveState) ∧
      ((moveCursor E keysDown UIState.statePaused st).cursor = 3 →
        (uiLoop E keysDown st).1 = E.resultClose)) ∧
    (pressed keysDown E.KEY_B = true → (uiLoop E keysDown st).1 = E.resultUnpause) := by
  constructor
  · intro hA hB
    rw [uiLoop_paused E keysDown st hstate hX (by simp [hA])]
    unfold selectPaused
    refine ⟨?_, ?_, ?_, ?_⟩ <;> intro hc <;> simp [hB, hc]
  · intro hB
    rw [uiLoop_paused E keysDown st hstate hX (by simp [hB])]
    unfold selectPaused
    simp [hB]

theorem C12_pause_menu_witness :
    (uiLoop sampleEnv 1 pausedUI).1 = sampleEnv.resultUnpause ∧
    (uiLoop sampleEnv 32769 pausedUI).1 = sampleEnv.resultLoadState ∧
    (uiLoop sampleEnv 32769 (frames sampleEnv 32768 1 pausedUI)).1
      = sampleEnv.resultSaveState ∧
    (uiLoop sampleEnv 16385 pausedUI).1 = sampleEnv.resultClose ∧
    (uiLoop sampleEnv 16387 pausedUI).1 = sampleEnv.resultUnpause :=
  ⟨((C12_pause_menu sampleEnv 1 pausedUI rfl (by decide)).1 (by decide) (by decide)).1
      (by decide),
   ((C12_pause_menu sampleEnv 32769 pausedUI rfl (by decide)).1 (by decide)
      (by decide)).2.1 (by decide),
   ((C12_pause_menu sampleEnv 32769 (frames sampleEnv 32768 1 pausedUI) (by decide)
      (by decide)).1 (by decide) (by decide)).2.2.1 (by decide),
   ((C12_pause_menu sampleEnv 16385 pausedUI rfl (by decide)).1 (by decide)
      (by decide)).2.2.2 (by decide),
   (C12_pause_menu sampleEnv 16387 pausedUI rfl (by decide)).2 (by decide)⟩

/-- The frame in the RemapButtons state: the image is drawn and the tail of `uiLoop`
runs; no key is looked at. -/
theorem uiLoop_remap (E : Env) (keysDown : Nat) (st : UI)
    (hstate : uiGetState st = UIState.stateRemapButtons) :
    uiLoop E keysDown st = fadeOut E st := by
  unfold uiLoop
  simp [hstate]

/-- The frame with the quit bit set in a state that routes input. -/
theorem uiLoop_quit (E : Env) (keysDown : Nat) (st : UI)
    (hremap : uiGetState st ≠ UIState.stateRemapButtons)
    (hrun : uiGetState st ≠ UIState.stateRunning)
    (hX : pressed keysDown E.KEY_X = true) :
    uiLoop E keysDown st = (E.resultExit, moveCursor E keysDown (uiGetState st) st) := by
  unfold uiLoop
  simp [hremap, hrun, hX]

theorem fadeOut_fields (E : Env) (st : UI) :
    (fadeOut E st).1 = E.resultNone ∧ (fadeOut E st).2.mem = st.mem ∧
    (fadeOut E st).2.settings = st.settings ∧
    (fadeOut E st).2.settingsChanged = st.settingsChanged ∧
    (fadeOut E st).2.currentDirectory = st.currentDirectory ∧
    (fadeOut E st).2.selectedPath = st.selectedPath ∧
    (fadeOut E st).2.filenames = st.filenames ∧
    (fadeOut E st).2.cursor = st.cursor ∧ (fadeOut E st).2.scroll = st.scroll := by
  unfold fadeOut
  split_ifs <;> exact ⟨rfl, rfl, rfl, rfl, rfl, rfl, rfl, rfl, rfl⟩

/-- C13, as stated, fails in the RemapButtons state: there `uiLoop` draws the image and
looks at no key, so with the quit bit set the frame returns `resultNone`, not
`resultExit`. -/
theorem C13_counterexample_remap :
    uiGetState remapUI = UIState.stateRemapButtons ∧
    pressed 4 sampleEnv.KEY_X = true ∧
    (uiLoop sampleEnv 4 remapUI).1 = sampleEnv.resultNone ∧
    (uiLoop sampleEnv 4 remapUI).1 ≠ sampleEnv.resultExit := by
  refine ⟨rfl, by decide, by decide, by decide⟩

/-- C13 (amended): in the states FileSelect, Settings and Paused, whenever the quit bit
is set `uiLoop` returns the exit result whatever the other bits are, and the frame does
nothing but the navigation: setting values, settings and their strings, the dirty flag,
`currentDirectory` and the selected path are unchanged.  In the RemapButtons state the
quit bit is not looked at: the frame returns the none result, and these parts of the
state are unchanged as well. -/
theorem C13_quit (E : Env) (keysDown : Nat) (st : UI)
    (hX : pressed keysDown E.KEY_X = true) :
    ((uiGetState st = UIState.stateFileselect ∨ uiGetState st = UIState.stateSettings ∨
        uiGetState st = UIState.statePaused) →
      (uiLoop E keysDown st).1 = E.resultExit ∧
      (uiLoop E keysDown st).2 = moveCursor E keysDown (uiGetState st) st ∧
      (uiLoop E keysDown st).2.mem = st.mem ∧
      (uiLoop E keysDown st).2.settings = st.settings ∧
      (uiLoop E keysDown st).2.settingsChanged = st.settingsChanged ∧
      (uiLoop E keysDown st).2.currentDirectory = st.currentDirectory ∧
      (uiLoop E keysDown st).2.selectedPath = st.selectedPath) ∧
    (uiGetState st = UIState.stateRemapButtons →
      (uiLoop E keysDown st).1 = E.resultNone ∧
      (uiLoop E keysDown st).2.mem = st.mem ∧
      (uiLoop E keysDown st).2.settings = st.settings ∧
      (uiLoop E keysDown st).2.settingsChanged = st.settingsChanged ∧
      (uiLoop E keysDown st).2.currentDirectory = st.currentDirectory ∧
      (uiLoop E keysDown st).2.selectedPath = st.selectedPath) := by
  constructor
  · intro hstate
    have hremap : uiGetState st ≠ UIState.stateRemapButtons := by
      rcases hstate with h | h | h <;> rw [h] <;> decide
    have hrun : uiGetState st ≠ UIState.stateRunning := by
      rcases hstate with h | h | h <;> rw [h] <;> decide
    rw [uiLoop_quit E keysDown st hremap hrun hX]
    exact ⟨rfl, rfl, rfl, rfl, rfl, rfl, rfl⟩
  · intro hstate
    rw [uiLoop_remap E keysDown st hstate]
    have h := fadeOut_fields E st
    exact ⟨h.1, h.2.1, h.2.2.1, h.2.2.2.1, h.2.2.2.2.1, h.2.2.2.2.2.1⟩

theorem C13_quit_witness :
    ((uiLoop sampleEnv 7 sampleSettingsUI).1 = sampleEnv.resultExit ∧
      (uiLoop sampleEnv 7 sampleSettingsUI).2
        = moveCursor sampleEnv 7 (uiGetState sampleSettingsUI) sampleSettingsUI ∧
      (uiLoop sampleEnv 7 sampleSettingsUI).2.mem = sampleSettingsUI.mem ∧
      (uiLoop sampleEnv 7 sampleSettingsUI).2.settings = sampleSettingsUI.settings ∧
      (uiLoop sampleEnv 7 sampleSettingsUI).2.settingsChanged
        = sampleSettingsUI.settingsChanged ∧
      (uiLoop sampleEnv 7 sampleSettingsUI).2.currentDirectory
        = sampleSettingsUI.currentDirectory ∧
      (uiLoop sampleEnv 7 sampleSettingsUI).2.selectedPath = sampleSettingsUI.selectedPath) ∧
    ((uiLoop sampleEnv 4 remapUI).1 = sampleEnv.resultNone ∧
      (uiLoop sampleEnv 4 remapUI).2.mem = remapUI.mem ∧
      (uiLoop sampleEnv 4 remapUI).2.settings = remapUI.settings ∧
      (uiLoop sampleEnv 4 remapUI).2.settingsChanged = remapUI.settingsChanged ∧
      (uiLoop sampleEnv 4 remapUI).2.currentDirectory = remapUI.currentDirectory ∧
      (uiLoop sampleEnv 4 remapUI).2.selectedPath = remapUI.selectedPath) :=
  ⟨(C13_quit sampleEnv 7 sampleSettingsUI (by decide)).1 (Or.inr (Or.inl rfl)),
   (C13_quit sampleEnv 4 remapUI (by decide)).2 rfl⟩

/-! ## The file branch of the handler -/

/-- The file branch in terms of the path it resolves. -/
theorem selectFile_eq (E : Env) (keysDown : Nat) (st : UI) :
    selectFile E keysDown st
      = if E.isDirectory (resolvedPath E keysDown st) then
          fadeOut E (enterDirectory E
            { cancelToTop E keysDown st with
              currentDirectory := strcpy_safe (resolvedPath E keysDown st) E.PATH_LENGTH })
        else
          (E.resultSelectedFile,
            { cancelToTop E keysDown st with
              selectedPath := strcpy_safe (resolvedPath E keysDown st) E.PATH_LENGTH }) := by
  unfold selectFile resolvedPath selectedEntry cancelToTop
  cases pressed keysDown E.KEY_B <;> rfl

/-- The file branch when the resolved path is a directory. -/
theorem selectFile_dir (E : Env) (keysDown : Nat) (st : UI)
    (hdir : E.isDirectory (resolvedPath E keysDown st) = true) :
    (selectFile E keysDown st).1 = E.resultNone ∧
    (selectFile E keysDown st).2.currentDirectory
      = strcpy_safe (resolvedPath E keysDown st) E.PATH_LENGTH ∧
    (selectFile E keysDown st).2.filenames
      = E.getDirectoryContents FILENAMES_COUNT_MAX
          (strcpy_safe (resolvedPath E keysDown st) E.PATH_LENGTH) ∧
    (selectFile E keysDown st).2.cursor = 0 ∧ (selectFile E keysDown st).2.scroll = 0 ∧
    (selectFile E keysDown st).2.selectedPath = st.selectedPath := by
  rw [selectFile_eq, if_pos hdir]
  have h := fadeOut_fields E (enterDirectory E
    { cancelToTop E keysDown st with
      currentDirectory := strcpy_safe (resolvedPath E keysDown st) E.PATH_LENGTH })
  refine ⟨h.1, h.2.2.2.2.1, h.2.2.2.2.2.2.1, h.2.2.2.2.2.2.2.1, h.2.2.2.2.2.2.2.2, ?_⟩
  rw [h.2.2.2.2.2.1]
  unfold enterDirectory cancelToTop
  split_ifs <;> rfl

/-- The file branch when the resolved path is not a directory. -/
theorem selectFile_notdir (E : Env) (keysDown : Nat) (st : UI)
    (hdir : E.isDirectory (resolvedPath E keysDown st) = false) :
    (selectFile E keysDown st).1 = E.resultSelectedFile ∧
    (selectFile E keysDown st).2.currentDirectory = st.currentDirectory ∧
    (selectFile E keysDown st).2.filenames = st.filenames ∧
    (selectFile E keysDown st).2.selectedPath
      = strcpy_safe (resolvedPath E keysDown st) E.PATH_LENGTH := by
  rw [selectFile_eq, if_neg (by simp [hdir])]
  unfold cancelToTop
  split_ifs <;> exact ⟨rfl, rfl, rfl, rfl⟩

/-! ## The parent directory -/

/-- What the backward search returns after looking at the indices below `n`. -/
theorem parentSearch_spec (dir : CStr) (n : Nat) :
    ((∀ j, j < n → dir[j]? ≠ some '/') ∧ parentSearch dir n = []) ∨
    (∃ i, i < n ∧ dir[i]? = some '/' ∧ (∀ j, i < j → j < n → dir[j]? ≠ some '/') ∧
      parentSearch dir n = dir.take i) := by
  induction n with
  | zero => exact Or.inl ⟨fun j hj => absurd hj (Nat.not_lt_zero j), rfl⟩
  | succ n ih =>
    by_cases h : dir[n]? = some '/'
    · refine Or.inr ⟨n, Nat.lt_succ_self n, h, fun j h1 h2 => by omega, ?_⟩
      simp [parentSearch, h]
    · have e : parentSearch dir (n + 1) = parentSearch dir n := by simp [parentSearch, h]
      rcases ih with ⟨h1, h2⟩ | ⟨i, hi, h1, h2, h3⟩
      · refine Or.inl ⟨fun j hj => ?_, e.trans h2⟩
        rcases Nat.lt_or_ge j n with hjn | hjn
        · exact h1 j hjn
        · have : j = n := by omega
          rw [this]
          exact h
      · refine Or.inr ⟨i, by omega, h1, fun j hij hj => ?_, e.trans h3⟩
        rcases Nat.lt_or_ge j n with hjn | hjn
        · exact h2 j hij hjn
        · have : j = n := by omega
          rw [this]
          exact h

/-- The search over the whole string cuts at the last separator. -/
theorem parentSearch_last (dir : CStr) (i : Nat) (hi : dir[i]? = some '/')
    (hlast : ∀ j, i < j → dir[j]? ≠ some '/') :
    parentSearch dir dir.length = dir.take i := by
  have hlt : i < dir.length := by
    rcases Nat.lt_or_ge i dir.length with h | h
    · exact h
    · rw [List.getElem?_eq_none h] at hi
      cases hi
  rcases parentSearch_spec dir dir.length with ⟨h1, _⟩ | ⟨k, hk, h1, h2, h3⟩
  · exact absurd hi (h1 i hlt)
  · rcases Nat.lt_trichotomy k i with h | h | h
    · exact absurd hi (h2 i h hlt)
    · rw [h3, h]
    · exact absurd h1 (hlast k h)

/-- The search over a string without separator leaves `path` empty. -/
theorem parentSearch_none (dir : CStr) (h : '/' ∉ dir) : parentSearch dir dir.length = [] := by
  rcases parentSearch_spec dir dir.length with ⟨_, h2⟩ | ⟨k, _, h1, _, _⟩
  · exact h2
  · exact absurd (List.getElem?_mem h1) h

theorem parentSearch_length_le (dir : CStr) (n : Nat) :
    (parentSearch dir n).length ≤ dir.length := by
  rcases parentSearch_spec dir n with ⟨_, h2⟩ | ⟨k, _, _, _, h3⟩
  · rw [h2]
    exact Nat.zero_le _
  · rw [h3, List.length_take]
    exact Nat.min_le_right _ _

theorem parentLoop_succ (dir : CStr) (fuel : Nat) (i : Int) :
    parentLoop dir (fuel + 1) i
      = if i ≥ 0 then
          if dir[i.toNat]? = some '/' then some (dir.take i.toNat, [i])
          else (parentLoop dir fuel (i - 1)).map (fun r => (r.1, i :: r.2))
        else some ([], []) := rfl

/-- The loop with the `int` variable started at `n - 1` ends within `n + 1` rounds,
leaves in `path` what `parentSearch` computes, and reads only indices in `[0, n)`. -/
theorem parentLoop_spec (dir : CStr) (n : Nat) (hn : n ≤ dir.length) :
    ∃ reads, parentLoop dir (n + 1) ((n : Int) - 1) = some (parentSearch dir n, reads) ∧
      ∀ i ∈ reads, 0 ≤ i ∧ i < (dir.length : Int) := by
  induction n with
  | zero =>
    refine ⟨[], ?_, fun i hi => absurd hi (List.not_mem_nil i)⟩
    rw [parentLoop_succ]
    simp [parentSearch]
  | succ n ih =>
    obtain ⟨reads, h1, h2⟩ := ih (by omega)
    have e : ((n + 1 : Nat) : Int) - 1 = (n : Int) := by omega
    have hpos : (n : Int) ≥ 0 := Int.natCast_nonneg n
    by_cases h : dir[n]? = some '/'
    · refine ⟨[(n : Int)], ?_, fun i hi => ?_⟩
      · rw [e, parentLoop_succ, if_pos hpos]
        simp [parentSearch, h]
      · rw [List.mem_singleton] at hi
        omega
    · refine ⟨(n : Int) :: reads, ?_, fun i hi => ?_⟩
      · rw [e, parentLoop_succ, if_pos hpos]
        simp only [Int.toNat_ofNat, h, if_false, parentSearch]
        rw [h1]
        rfl
      · rcases List.mem_cons.mp hi with hi | hi
        · omega
        · exact h2 i hi

theorem moveCursor_browser (E : Env) (keysDown : Nat) (state : UIState) (st : UI) :
    (moveCursor E keysDown state st).currentDirectory = st.currentDirectory ∧
    (moveCursor E keysDown state st).filenames = st.filenames ∧
    (moveCursor E keysDown state st).selectedPath = st.selectedPath := ⟨rfl, rfl, rfl⟩

/-- The resolved path when the entry read is "..". -/
theorem resolvedPath_dots (E : Env) (keysDown : Nat) (st : UI)
    (hsel : selectedEntry E keysDown st = "..".toList) :
    resolvedPath E keysDown st
      = parentSearch st.currentDirectory st.currentDirectory.length := by
  unfold resolvedPath
  rw [if_pos hsel]

/-- The resolved path fits the path buffer whenever `currentDirectory` does. -/
theorem resolvedPath_fits (E : Env) (keysDown : Nat) (st : UI)
    (hbuf : st.currentDirectory.length < E.PATH_LENGTH) :
    strcpy_safe (resolvedPath E keysDown st) E.PATH_LENGTH = resolvedPath E keysDown st := by
  unfold strcpy_safe
  apply List.take_of_length_le
  unfold resolvedPath
  split_ifs
  · have := parentSearch_length_le st.currentDirectory st.currentDirectory.length
    omega
  · unfold snprintf
    rw [List.length_take]
    exact Nat.min_le_left _ _

/-- C17: when ".." is the entry the file branch reads, the path it resolves is
`currentDirectory` cut before its last `'/'`, and the empty string when there is no
`'/'`; the backward search, run with its `int` loop variable from `length - 1`, ends
and reads only indices in `[0, length)`, none for an empty `currentDirectory`; the
frame's outcome is decided by classifying this path.  For `currentDirectory = "/roms"`
with cancel pressed the parent resolves to `""`. -/
theorem C17_parent_path (E : Env) (keysDown : Nat) (st : UI)
    (hstate : uiGetState st = UIState.stateFileselect)
    (hX : pressed keysDown E.KEY_X = false)
    (hAB : (pressed keysDown E.KEY_A || pressed keysDown E.KEY_B) = true)
    (hsel : selectedEntry E keysDown (moveCursor E keysDown UIState.stateFileselect st)
      = "..".toList) :
    (∀ i, st.currentDirectory[i]? = some '/' →
      (∀ j, i < j → st.currentDirectory[j]? ≠ some '/') →
      resolvedPath E keysDown (moveCursor E keysDown UIState.stateFileselect st)
        = st.currentDirectory.take i) ∧
    ('/' ∉ st.currentDirectory →
      resolvedPath E keysDown (moveCursor E keysDown UIState.stateFileselect st) = []) ∧
    (∃ reads,
      parentLoop st.currentDirectory (st.currentDirectory.length + 1)
          ((st.currentDirectory.length : Int) - 1)
        = some (resolvedPath E keysDown (moveCursor E keysDown UIState.stateFileselect st),
            reads) ∧
      ∀ i ∈ reads, 0 ≤ i ∧ i < (st.currentDirectory.length : Int)) ∧
    (uiLoop E keysDown st).1
      = (if E.isDirectory
            (resolvedPath E keysDown (moveCursor E keysDown UIState.stateFileselect st))
         then E.resultNone else E.resultSelectedFile) ∧
    (parentLoop [] 1 (-1) = some ([], []) ∧
      romsDirUI.currentDirectory = "/roms".toList ∧
      selectedEntry sampleEnv 2 (moveCursor sampleEnv 2 UIState.stateFileselect romsDirUI)
        = "..".toList ∧
      resolvedPath sampleEnv 2 (moveCursor sampleEnv 2 UIState.stateFileselect romsDirUI)
        = "".toList) := by
  have hp := resolvedPath_dots E keysDown _ hsel
  rw [(moveCursor_browser E keysDown UIState.stateFileselect st).1] at hp
  refine ⟨fun i hi hlast => ?_, fun hno => ?_, ?_, ?_, ?_⟩
  · rw [hp]
    exact parentSearch_last _ i hi hlast
  · rw [hp]
    exact parentSearch_none _ hno
  · rw [hp]
    exact parentLoop_spec st.currentDirectory st.currentDirectory.length (le_refl _)
  · rw [uiLoop_fileselect E keysDown st hstate hX hAB, selectFile_eq]
    split_ifs
    · exact (fadeOut_fields E _).1
    · rfl
  · exact ⟨by decide, by decide, by decide, by decide⟩

theorem C17_parent_path_witness :
    (resolvedPath sampleEnv 2 (moveCursor sampleEnv 2 UIState.stateFileselect gbaDirUI)
        = gbaDirUI.currentDirectory.take 5) ∧
    (∃ reads,
      parentLoop gbaDirUI.currentDirectory (gbaDirUI.currentDirectory.length + 1)
          ((gbaDirUI.currentDirectory.length : Int) - 1)
        = some (resolvedPath sampleEnv 2
            (moveCursor sampleEnv 2 UIState.stateFileselect gbaDirUI), reads) ∧
      ∀ i ∈ reads, 0 ≤ i ∧ i < (gbaDirUI.currentDirectory.length : Int)) ∧
    (uiLoop sampleEnv 2 gbaDirUI).1
      = (if sampleEnv.isDirectory
            (resolvedPath sampleEnv 2 (moveCursor sampleEnv 2 UIState.stateFileselect gbaDirUI))
         then sampleEnv.resultNone else sampleEnv.resultSelectedFile) :=
  have h := C17_parent_path sampleEnv 2 gbaDirUI (by decide) (by decide) (by decide)
    (by decide)
  ⟨h.1 5 (by decide) (by
      intro j hj
      have hlen : gbaDirUI.currentDirectory = "/roms/gba".toList := by decide
      rw [hlen]
      rcases Nat.lt_or_ge j 9 with h9 | h9
      · have : j = 6 ∨ j = 7 ∨ j = 8 := by omega
        rcases this with e | e | e <;> subst e <;> decide
      · rw [List.getElem?_eq_none (by simpa using h9)]
        exact fun e => nomatch e),
   h.2.2.1, h.2.2.2.1⟩

/-- C18: in the FileSelect state, when confirm or cancel (without quit) reads an entry
`filenames[cursor]` of the listing and resolves from it a path that `isDirectory` reports
as a directory, `currentDirectory` becomes that path (the parent found by the backward
search for "..", else `currentDirectory/entry`), the listing is what
`getDirectoryContents` returns for it, cursor and scroll are both 0 whatever they were,
the selected path is unchanged, and the frame's result is none, hence not file-selected.
`currentDirectory` is taken to fit its buffer. -/
theorem C18_enter_directory (E : Env) (keysDown : Nat) (st : UI) (entry : CStr)
    (hstate : uiGetState st = UIState.stateFileselect)
    (hX : pressed keysDown E.KEY_X = false)
    (hAB : (pressed keysDown E.KEY_A || pressed keysDown E.KEY_B) = true)
    (hbuf : st.currentDirectory.length < E.PATH_LENGTH)
    (hentry : atIndex
        (cancelToTop E keysDown (moveCursor E keysDown UIState.stateFileselect st)).filenames
        (cancelToTop E keysDown (moveCursor E keysDown UIState.stateFileselect st)).cursor
      = some entry)
    (hdir : E.isDirectory
      (resolvedPath E keysDown (moveCursor E keysDown UIState.stateFileselect st)) = true) :
    resolvedPath E keysDown (moveCursor E keysDown UIState.stateFileselect st)
      = (if entry = "..".toList then
          parentSearch st.currentDirectory st.currentDirectory.length
        else snprintf E.PATH_LENGTH (st.currentDirectory ++ "/".toList ++ entry)) ∧
    (uiLoop E keysDown st).2.currentDirectory
      = resolvedPath E keysDown (moveCursor E keysDown UIState.stateFileselect st) ∧
    (uiLoop E keysDown st).2.filenames
      = E.getDirectoryContents FILENAMES_COUNT_MAX
          (resolvedPath E keysDown (moveCursor E keysDown UIState.stateFileselect st)) ∧
    (uiLoop E keysDown st).2.cursor = 0 ∧ (uiLoop E keysDown st).2.scroll = 0 ∧
    (uiLoop E keysDown st).2.selectedPath = st.selectedPath ∧
    (uiLoop E keysDown st).1 = E.resultNone ∧
    (E.resultNone ≠ E.resultSelectedFile →
      (uiLoop E keysDown st).1 ≠ E.resultSelectedFile) := by
  have h := selectFile_dir E keysDown _ hdir
  have hfit := resolvedPath_fits E keysDown
    (moveCursor E keysDown UIState.stateFileselect st) hbuf
  rw [hfit] at h
  have hpath : resolvedPath E keysDown (moveCursor E keysDown UIState.stateFileselect st)
      = (if entry = "..".toList then
          parentSearch st.currentDirectory st.currentDirectory.length
        else snprintf E.PATH_LENGTH (st.currentDirectory ++ "/".toList ++ entry)) := by
    unfold resolvedPath selectedEntry
    rw [hentry, (moveCursor_browser E keysDown UIState.stateFileselect st).1]
    rfl
  rw [uiLoop_fileselect E keysDown st hstate hX hAB]
  refine ⟨hpath, h.2.1, h.2.2.1, h.2.2.2.1, h.2.2.2.2.1, h.2.2.2.2.2, h.1, fun hne => ?_⟩
  rw [h.1]
  exact hne

theorem C18_enter_directory_witness :
    resolvedPath sampleEnv 32769
        (moveCursor sampleEnv 32769 UIState.stateFileselect romsDirUI)
      = (if "gba".toList = "..".toList then
          parentSearch romsDirUI.currentDirectory romsDirUI.currentDirectory.length
        else snprintf sampleEnv.PATH_LENGTH
          (romsDirUI.currentDirectory ++ "/".toList ++ "gba".toList)) ∧
    (uiLoop sampleEnv 32769 romsDirUI).2.currentDirectory = "/roms/gba".toList ∧
    (uiLoop sampleEnv 32769 romsDirUI).2.currentDirectory
      = resolvedPath sampleEnv 32769
          (moveCursor sampleEnv 32769 UIState.stateFileselect romsDirUI) ∧
    (uiLoop sampleEnv 32769 romsDirUI).2.filenames
      = sampleEnv.getDirectoryContents FILENAMES_COUNT_MAX
          (resolvedPath sampleEnv 32769
            (moveCursor sampleEnv 32769 UIState.stateFileselect romsDirUI)) ∧
    (uiLoop sampleEnv 32769 romsDirUI).2.cursor = 0 ∧
    (uiLoop sampleEnv 32769 romsDirUI).2.scroll = 0 ∧
    (uiLoop sampleEnv 32769 romsDirUI).2.selectedPath = romsDirUI.selectedPath ∧
    (uiLoop sampleEnv 32769 romsDirUI).1 = sampleEnv.resultNone ∧
    (uiLoop sampleEnv 32769 romsDirUI).1 ≠ sampleEnv.resultSelectedFile :=
  have h := C18_enter_directory sampleEnv 32769 romsDirUI "gba".toList (by decide) (by decide)
    (by decide) (by decide) (by decide) (by decide)
  ⟨h.1, by decide, h.2.1, h.2.2.1, h.2.2.2.1, h.2.2.2.2.1, h.2.2.2.2.2.1, h.2.2.2.2.2.2.1,
    h.2.2.2.2.2.2.2 (by decide)⟩

/-- The outcome of the file branch is a function of the resolved path, the directory,
the listing and the selected path. -/
theorem selectFile_same (E : Env) (kA kB : Nat) (sA sB : UI)
    (hpath : resolvedPath E kA sA = resolvedPath E kB sB)
    (hdirs : sA.currentDirectory = sB.currentDirectory)
    (hlist : sA.filenames = sB.filenames)
    (hselp : sA.selectedPath = sB.selectedPath) :
    (selectFile E kA sA).1 = (selectFile E kB sB).1 ∧
    (selectFile E kA sA).2.currentDirectory = (selectFile E kB sB).2.currentDirectory ∧
    (selectFile E kA sA).2.selectedPath = (selectFile E kB sB).2.selectedPath ∧
    (selectFile E kA sA).2.filenames = (selectFile E kB sB).2.filenames := by
  cases hd : E.isDirectory (resolvedPath E kB sB) with
  | true =>
    have hB := selectFile_dir E kB sB hd
    have hA := selectFile_dir E kA sA (by rw [hpath]; exact hd)
    rw [hpath] at hA
    exact ⟨hA.1.trans hB.1.symm, hA.2.1.trans hB.2.1.symm,
      (hA.2.2.2.2.2.trans hselp).trans hB.2.2.2.2.2.symm, hA.2.2.1.trans hB.2.2.1.symm⟩
  | false =>
    have hB := selectFile_notdir E kB sB hd
    have hA := selectFile_notdir E kA sA (by rw [hpath]; exact hd)
    rw [hpath] at hA
    exact ⟨hA.1.trans hB.1.symm, (hA.2.1.trans hdirs).trans hB.2.1.symm,
      hA.2.2.2.trans hB.2.2.2.symm, (hA.2.2.1.trans hlist).trans hB.2.2.1.symm⟩

/-! ## Claims on the parent shortcut -/

/-- C11, as stated for every listing that contains "..", fails when ".." is not the
first entry: with the listing `["game.gba", ".."]` in "/roms/gba" and the cursor on
"..", confirm enters "/roms" (result none), while cancel sets the cursor to 0, reads
"game.gba" and selects the file "/roms/gba/game.gba". -/
theorem C11_counterexample_dots_not_first :
    "..".toList ∈ oddListingUI.filenames ∧
    atIndex oddListingUI.filenames
      (moveCursor sampleEnv 1 UIState.stateFileselect oddListingUI).cursor = some "..".toList ∧
    (uiLoop sampleEnv 1 oddListingUI).1 = sampleEnv.resultNone ∧
    (uiLoop sampleEnv 1 oddListingUI).2.currentDirectory = "/roms".toList ∧
    (uiLoop sampleEnv 2 oddListingUI).1 = sampleEnv.resultSelectedFile ∧
    (uiLoop sampleEnv 2 oddListingUI).2.currentDirectory = "/roms/gba".toList ∧
    (uiLoop sampleEnv 2 oddListingUI).2.selectedPath = "/roms/gba/game.gba".toList ∧
    (uiLoop sampleEnv 1 oddListingUI).1 ≠ (uiLoop sampleEnv 2 oddListingUI).1 := by
  refine ⟨by decide, by decide, by decide, by decide, by decide, by decide, by decide,
    by decide⟩

/-- C11 (amended): in the FileSelect state, for every listing whose first entry is
".." and every cursor position, a cancel frame resolves the same parent path, and
ends with the same result, `currentDirectory`, selected path and listing, as a confirm
frame on the same directory, listing and selected path whose highlighted entry is
"..". -/
theorem C11_cancel_goes_up (E : Env) (kA kB : Nat) (sA sB : UI)
    (hstateA : uiGetState sA = UIState.stateFileselect)
    (hstateB : uiGetState sB = UIState.stateFileselect)
    (hXA : pressed kA E.KEY_X = false) (hXB : pressed kB E.KEY_X = false)
    (hA : pressed kA E.KEY_A = true) (hAB : pressed kA E.KEY_B = false)
    (hB : pressed kB E.KEY_B = true)
    (hdirs : sA.currentDirectory = sB.currentDirectory)
    (hlist : sA.filenames = sB.filenames)
    (hselp : sA.selectedPath = sB.selectedPath)
    (hfirst : sB.filenames[0]? = some "..".toList)
    (hon : atIndex sA.filenames (moveCursor E kA UIState.stateFileselect sA).cursor
      = some "..".toList) :
    resolvedPath E kB (moveCursor E kB UIState.stateFileselect sB)
      = parentSearch sB.currentDirectory sB.currentDirectory.length ∧
    resolvedPath E kA (moveCursor E kA UIState.stateFileselect sA)
      = resolvedPath E kB (moveCursor E kB UIState.stateFileselect sB) ∧
    (uiLoop E kA sA).1 = (uiLoop E kB sB).1 ∧
    (uiLoop E kA sA).2.currentDirectory = (uiLoop E kB sB).2.currentDirectory ∧
    (uiLoop E kA sA).2.selectedPath = (uiLoop E kB sB).2.selectedPath ∧
    (uiLoop E kA sA).2.filenames = (uiLoop E kB sB).2.filenames := by
  have hselA : selectedEntry E kA (moveCursor E kA UIState.stateFileselect sA)
      = "..".toList := by
    unfold selectedEntry cancelToTop
    rw [hAB]
    simp only [Bool.false_eq_true, if_false]
    rw [(moveCursor_browser E kA UIState.stateFileselect sA).2.1, hon]
    rfl
  have hselB : selectedEntry E kB (moveCursor E kB UIState.stateFileselect sB)
      = "..".toList := by
    unfold selectedEntry cancelToTop
    rw [hB]
    simp only [if_true]
    have e : atIndex (moveCursor E kB UIState.stateFileselect sB).filenames 0
        = sB.filenames[0]? := atIndex_natCast sB.filenames 0
    rw [e, hfirst]
    rfl
  have hpA := resolvedPath_dots E kA _ hselA
  have hpB := resolvedPath_dots E kB _ hselB
  rw [(moveCursor_browser E kA UIState.stateFileselect sA).1] at hpA
  rw [(moveCursor_browser E kB UIState.stateFileselect sB).1] at hpB
  have hpath : resolvedPath E kA (moveCursor E kA UIState.stateFileselect sA)
      = resolvedPath E kB (moveCursor E kB UIState.stateFileselect sB) := by
    rw [hpA, hpB, hdirs]
  have h := selectFile_same E kA kB (moveCursor E kA UIState.stateFileselect sA)
    (moveCursor E kB UIState.stateFileselect sB) hpath hdirs hlist hselp
  rw [uiLoop_fileselect E kA sA hstateA hXA (by simp [hA]),
    uiLoop_fileselect E kB sB hstateB hXB (by simp [hB])]
  exact ⟨hpB, hpath, h.1, h.2.1, h.2.2.1, h.2.2.2⟩

theorem C11_cancel_goes_up_witness :
    resolvedPath sampleEnv 2
        (moveCursor sampleEnv 2 UIState.stateFileselect (frames sampleEnv 32768 1 gbaDirUI))
      = parentSearch (frames sampleEnv 32768 1 gbaDirUI).currentDirectory
          (frames sampleEnv 32768 1 gbaDirUI).currentDirectory.length ∧
    resolvedPath sampleEnv 1 (moveCursor sampleEnv 1 UIState.stateFileselect gbaDirUI)
      = resolvedPath sampleEnv 2
          (moveCursor sampleEnv 2 UIState.stateFileselect (frames sampleEnv 32768 1 gbaDirUI)) ∧
    (uiLoop sampleEnv 1 gbaDirUI).1
      = (uiLoop sampleEnv 2 (frames sampleEnv 32768 1 gbaDirUI)).1 ∧
    (uiLoop sampleEnv 1 gbaDirUI).2.currentDirectory
      = (uiLoop sampleEnv 2 (frames sampleEnv 32768 1 gbaDirUI)).2.currentDirectory ∧
    (uiLoop sampleEnv 1 gbaDirUI).2.selectedPath
      = (uiLoop sampleEnv 2 (frames sampleEnv 32768 1 gbaDirUI)).2.selectedPath ∧
    (uiLoop sampleEnv 1 gbaDirUI).2.filenames
      = (uiLoop sampleEnv 2 (frames sampleEnv 32768 1 gbaDirUI)).2.filenames :=
  C11_cancel_goes_up sampleEnv 1 2 gbaDirUI (frames sampleEnv 32768 1 gbaDirUI)
    (by decide) (by decide) (by decide) (by decide) (by decide) (by decide) (by decide)
    (by decide) (by decide) (by decide) (by decide) (by decide)

/-! ## Claims on saving -/

theorem persisted_get (st : UI) (i : Nat) (hi : i < st.settingsMetaStart) :
    (persisted st)[i]? = st.settings[i]? := by
  unfold persisted
  rw [List.getElem?_take, if_pos hi]

theorem printInt_small (v : Nat) (h : v < 2147483648) : printInt v = (v : Int) := by
  unfold printInt
  have e : v % 4294967296 = v := Nat.mod_eq_of_lt (by omega)
  rw [e, if_pos h]

/-- C14, as stated, fails in two ways.  (1) The write loop never tests `meta`: with the
meta setting "Act" (bound to slot 5) registered before the boundary, after "Scale", and
one confirm on "Scale", the file gets the line `Act=0` of a meta setting.  (2) The value
is printed with `%d`: with "Wide" over `UINT32_MAX` values at value index `2^31 + 1`,
within its values, the line is `Wide=-2147483647`, which is not that index.  In both
states every read of the write loop is defined. -/
theorem C14_counterexample_save :
    (metaBelowUI.settingsChanged = true ∧ saveReadDefined metaBelowUI = true ∧
      (∃ s, metaBelowUI.settings[1]? = some s ∧ s.meta = true ∧ s.name = "Act".toList ∧
        s.valueIdx = some 5 ∧ 1 < metaBelowUI.settingsMetaStart) ∧
      (uiSaveSettings true metaBelowUI).iniFile
        = some [IniLine.header "Misc".toList, IniLine.keyValue "Scale".toList 1,
            IniLine.keyValue "Act".toList 0]) ∧
    (highIndexUI.settingsChanged = true ∧ saveReadDefined highIndexUI = true ∧
      (∃ s, highIndexUI.settings[0]? = some s ∧ s.meta = false ∧ s.name = "Wide".toList ∧
        s.valuesCount = 4294967295 ∧ s.strValues.length = 4294967295 ∧
        0 < highIndexUI.settingsMetaStart) ∧
      valueOf highIndexUI 0 = 2147483649 ∧
      (uiSaveSettings true highIndexUI).iniFile
        = some [IniLine.header "Misc".toList,
            IniLine.keyValue "Wide".toList (-2147483647)] ∧
      ((-2147483647 : Int) ≠ ((valueOf highIndexUI 0 : Nat) : Int))) := by
  refine ⟨⟨by decide, by decide, ⟨_, rfl, rfl, rfl, rfl, by decide⟩, by decide⟩,
    by decide, by decide, ⟨_, rfl, rfl, rfl, rfl, ?_, by decide⟩, by decide, by decide, ?_⟩
  · exact List.length_replicate _ _
  · have e : valueOf highIndexUI 0 = 2147483649 := by decide
    rw [e]
    decide

/-- C14 (amended): `uiSaveSettings` changes nothing when the dirty flag is unset or when
the file cannot be opened.  When the flag is set, the file opens and the reads of the
write loop are defined (every index below `settingsMetaStart` is a registered setting
with a non-NULL `valueIdx`), the file becomes the section header followed by exactly one
line per setting with index below `settingsMetaStart`, meta or not, in registration
order: line `i + 1` is `name=value` of setting `i`, the value being `*valueIdx` printed
with `%d`, which is the value index itself when it is below `2^31` and the index minus
`2^32` from there on; there is no line for an index at or above `settingsMetaStart`. -/
theorem C14_save_settings (fopenOk : Bool) (st : UI) :
    (st.settingsChanged = false → uiSaveSettings fopenOk st = st) ∧
    (fopenOk = false → uiSaveSettings fopenOk st = st) ∧
    (st.settingsChanged = true → fopenOk = true → saveReadDefined st = true →
      uiSaveSettings fopenOk st = { st with iniFile := some (savedFile st) } ∧
      (savedFile st)[0]? = some (IniLine.header "Misc".toList) ∧
      (savedFile st).length = 1 + st.settingsMetaStart ∧
      (∀ i, i < st.settingsMetaStart →
        ∃ s p, st.settings[i]? = some s ∧ s.valueIdx = some p ∧ valueOf st i = st.mem p ∧
          (savedFile st)[i + 1]? = some (IniLine.keyValue s.name (printInt (valueOf st i))) ∧
          (valueOf st i < 2147483648 → printInt (valueOf st i) = (valueOf st i : Int)) ∧
          (2147483648 ≤ valueOf st i → valueOf st i < 4294967296 →
            printInt (valueOf st i) = (valueOf st i : Int) - 4294967296)) ∧
      (∀ j, st.settingsMetaStart ≤ j → (savedFile st)[j + 1]? = none)) := by
  refine ⟨fun h => ?_, fun h => ?_, fun hd ho hdef => ?_⟩
  · unfold uiSaveSettings
    simp [h]
  · unfold uiSaveSettings
    simp [h]
  · subst ho
    simp only [saveReadDefined, Bool.and_eq_true, decide_eq_true_eq, List.all_eq_true] at hdef
    obtain ⟨hle, hall⟩ := hdef
    have hlen : (persisted st).length = st.settingsMetaStart := by
      simp [persisted, List.length_take, hle]
    refine ⟨?_, by simp [savedFile], ?_, ?_, ?_⟩
    · unfold uiSaveSettings savedFile persisted
      simp [hd, range_filterMap_get]
    · simp only [savedFile, List.length_cons, List.length_map, hlen]
      omega
    · intro i hi
      have hi2 : i < st.settings.length := lt_of_lt_of_le hi hle
      have hs : st.settings[i]? = some st.settings[i] := List.getElem?_eq_getElem hi2
      have hmem : st.settings[i] ∈ persisted st :=
        List.getElem?_mem ((persisted_get st i hi).trans hs)
      have hsome := hall _ hmem
      cases hp : (st.settings[i]).valueIdx with
      | none => rw [hp] at hsome; cases hsome
      | some p =>
        have hv : valueOf st i = st.mem p := by
          simp only [valueOf, hs, hp, deref]
        refine ⟨st.settings[i], p, hs, hp, hv, ?_, printInt_small _, ?_⟩
        · simp only [savedFile, List.getElem?_cons_succ, List.getElem?_map,
            persisted_get st i hi, hs, Option.map_some', settingLine, valueOf]
        · intro h1 h2
          unfold printInt
          have e : valueOf st i % 4294967296 = valueOf st i := Nat.mod_eq_of_lt h2
          rw [e, if_neg (by omega)]
    · intro j hj
      simp only [savedFile, List.getElem?_cons_succ]
      apply List.getElem?_eq_none
      rw [List.length_map, hlen]
      exact hj

theorem C14_save_settings_witness :
    uiSaveSettings true sampleSettingsUI = sampleSettingsUI ∧
    uiSaveSettings false changedUI = changedUI ∧
    uiSaveSettings true changedUI = { changedUI with iniFile := some (savedFile changedUI) } ∧
    (savedFile changedUI)[0]? = some (IniLine.header "Misc".toList) ∧
    (savedFile changedUI).length = 1 + changedUI.settingsMetaStart ∧
    (∃ s p, changedUI.settings[1]? = some s ∧ s.valueIdx = some p ∧
      valueOf changedUI 1 = changedUI.mem p ∧
      (savedFile changedUI)[1 + 1]?
        = some (IniLine.keyValue s.name (printInt (valueOf changedUI 1))) ∧
      (valueOf changedUI 1 < 2147483648 →
        printInt (valueOf changedUI 1) = (valueOf changedUI 1 : Int)) ∧
      (2147483648 ≤ valueOf changedUI 1 → valueOf changedUI 1 < 4294967296 →
        printInt (valueOf changedUI 1) = (valueOf changedUI 1 : Int) - 4294967296)) ∧
    (savedFile changedUI)[2 + 1]? = none ∧
    savedFile changedUI = [IniLine.header "Misc".toList, IniLine.keyValue "Scale".toList 1,
      IniLine.keyValue "VSync".toList 0] :=
  have hoff := C14_save_settings true sampleSettingsUI
  have hro := C14_save_settings false changedUI
  have h := (C14_save_settings true changedUI).2.2 rfl rfl (by decide)
  ⟨hoff.1 rfl, hro.2.1 rfl, h.1, h.2.1, h.2.2.1, h.2.2.2.1 1 (by decide),
   h.2.2.2.2 2 (by decide), by decide⟩

/-! ## Claims on the frame of a selection and of the load -/

theorem deref_poke_other (mem : Nat → Nat) (a b : Option Nat) (v : Nat) (h : b ≠ a) :
    deref (poke mem a v) b = deref mem b := by
  cases a with
  | none => rfl
  | some p =>
    cases b with
    | none => rfl
    | some q =>
      have hne : q ≠ p := fun e => h (by rw [e])
      simp [poke, deref, Function.update_noteq hne]

/-- C15, as stated, fails in two ways.  (1) A setting bound to the same slot as the
selected one changes its value with it: with "A" and "B" on one slot at value 1, a
confirm on "A" takes the value of "B" to 0.  (2) The frame first navigates: with d-pad
down pressed together with A, the selection is made on the next row and the cursor is
1 afterwards, not 0. -/
theorem C15_counterexample_frame :
    (uiGetState sharedViewUI = UIState.stateSettings ∧
      (moveCursor sampleEnv 1 UIState.stateSettings sharedViewUI).cursor = 0 ∧
      (uiLoop sampleEnv 1 sharedViewUI).1 = sampleEnv.resultSettingsChanged ∧
      valueOf sharedViewUI 1 = 1 ∧ valueOf (uiLoop sampleEnv 1 sharedViewUI).2 1 = 0) ∧
    (uiGetState sampleSettingsUI = UIState.stateSettings ∧
      (uiLoop sampleEnv 32769 sampleSettingsUI).1 = sampleEnv.resultSettingsChanged ∧
      sampleSettingsUI.cursor = 0 ∧ (uiLoop sampleEnv 32769 sampleSettingsUI).2.cursor = 1) := by
  refine ⟨⟨rfl, by decide, by decide, by decide, by decide⟩,
    ⟨rfl, by decide, rfl, by decide⟩⟩

/-- C15 (amended): in the Settings state, without quit, a confirm or cancel frame on a
highlighted normal setting returns the settings-changed result and sets the dirty flag;
every other entry of the settings, its display string included, is unchanged, the value
of every other setting bound to a different slot is unchanged, and so is every slot but
the selected one; the state stack is unchanged; cursor and scroll are as the frame's
navigation left them, hence unchanged when no direction key is pressed. -/
theorem C15_select_frame (E : Env) (keysDown : Nat) (st : UI) (i : Nat) (s : Setting)
    (hstate : uiGetState st = UIState.stateSettings)
    (hX : pressed keysDown E.KEY_X = false)
    (hAB : (pressed keysDown E.KEY_A || pressed keysDown E.KEY_B) = true)
    (hcur : (moveCursor E keysDown UIState.stateSettings st).cursor = (i : Int))
    (hs : st.settings[i]? = some s) (hm : s.meta = false) :
    (uiLoop E keysDown st).1 = E.resultSettingsChanged ∧
    (uiLoop E keysDown st).2.settingsChanged = true ∧
    (∀ j, j ≠ i → (uiLoop E keysDown st).2.settings[j]? = st.settings[j]?) ∧
    (∀ j t, j ≠ i → st.settings[j]? = some t → t.valueIdx ≠ s.valueIdx →
      valueOf (uiLoop E keysDown st).2 j = valueOf st j) ∧
    (∀ p, s.valueIdx ≠ some p → (uiLoop E keysDown st).2.mem p = st.mem p) ∧
    (uiLoop E keysDown st).2.uiStateStack = st.uiStateStack ∧
    (uiLoop E keysDown st).2.uiStateStackCount = st.uiStateStackCount ∧
    (uiLoop E keysDown st).2.cursor = (moveCursor E keysDown UIState.stateSettings st).cursor ∧
    (uiLoop E keysDown st).2.scroll = (moveCursor E keysDown UIState.stateSettings st).scroll ∧
    (scrollAmountOf E keysDown = 0 →
      (uiLoop E keysDown st).2.cursor = st.cursor ∧
      (uiLoop E keysDown st).2.scroll = st.scroll) := by
  have hset : (moveCursor E keysDown UIState.stateSettings st).settings = st.settings := rfl
  have hmem : (moveCursor E keysDown UIState.stateSettings st).mem = st.mem := rfl
  rw [uiLoop_settings E keysDown st hstate hX hAB,
    selectSetting_normal E keysDown _ i s hcur hs hm, hset, hmem]
  refine ⟨rfl, rfl, fun j hj => ?_, fun j t hj ht hne => ?_, fun p hp => ?_, rfl, rfl, rfl,
    rfl, fun hnav => ?_⟩
  · exact List.getElem?_set_ne (Ne.symm hj)
  · simp only [valueOf, List.getElem?_set_ne (Ne.symm hj), ht]
    exact deref_poke_other _ _ _ _ hne
  · have := deref_poke_other st.mem s.valueIdx (some p)
      (nextValue (pressed keysDown E.KEY_A) s.valuesCount (deref st.mem s.valueIdx))
      (fun e => hp e.symm)
    simpa [deref] using this
  · rw [moveCursor_still E keysDown _ st hnav]
    exact ⟨rfl, rfl⟩

theorem C15_select_frame_witness :
    (uiLoop sampleEnv 2 sampleSettingsUI).1 = sampleEnv.resultSettingsChanged ∧
    (uiLoop sampleEnv 2 sampleSettingsUI).2.settingsChanged = true ∧
    (uiLoop sampleEnv 2 sampleSettingsUI).2.settings[1]? = sampleSettingsUI.settings[1]? ∧
    valueOf (uiLoop sampleEnv 2 sampleSettingsUI).2 1 = valueOf sampleSettingsUI 1 ∧
    (uiLoop sampleEnv 2 sampleSettingsUI).2.mem 1 = sampleSettingsUI.mem 1 ∧
    (uiLoop sampleEnv 2 sampleSettingsUI).2.uiStateStack = sampleSettingsUI.uiStateStack ∧
    (uiLoop sampleEnv 2 sampleSettingsUI).2.uiStateStackCount
      = sampleSettingsUI.uiStateStackCount ∧
    (uiLoop sampleEnv 2 sampleSettingsUI).2.cursor = sampleSettingsUI.cursor ∧
    (uiLoop sampleEnv 2 sampleSettingsUI).2.scroll = sampleSettingsUI.scroll :=
  have h := C15_select_frame sampleEnv 2 sampleSettingsUI 0 scaleEntry rfl (by decide)
    (by decide) (by decide) rfl rfl
  ⟨h.1, h.2.1, h.2.2.1 1 (by decide),
   h.2.2.2.1 1 vsyncEntry (by decide) rfl (by decide),
   h.2.2.2.2.1 1 (by decide), h.2.2.2.2.2.1, h.2.2.2.2.2.2.1,
   (h.2.2.2.2.2.2.2.2.2 (by decide)).1, (h.2.2.2.2.2.2.2.2.2 (by decide)).2⟩

theorem writes_boundary (E : Env) (st : UI) (cfg : IniFile) (k p x : Nat)
    (hk : k < st.settings.length) (h : Writes cfg (metaBoundary E st).settings k p x) :
    Writes cfg st.settings k p x := by
  obtain ⟨a, w, h1, h2, h3, h4⟩ := h
  exact ⟨a, w, (metaBoundary_get E st k hk).symm.trans h1, h2, h3, h4⟩

/-- C16, as stated, fails when value slots are shared: with "A" and "B" bound to one
slot at value 0 and a settings file that stores `B=1` and has no key "A", the load
changes the value of "A" to 1 although its key is missing. -/
theorem C16_counterexample_shared_slot :
    (∃ s, halfStoredUI.settings[0]? = some s ∧ s.name = "A".toList ∧
      ini_sget [IniLine.header "misc".toList, IniLine.keyValue "B".toList 1] s.name = none) ∧
    halfStoredUI.iniFile
      = some [IniLine.header "misc".toList, IniLine.keyValue "B".toList 1] ∧
    valueOf halfStoredUI 0 = 0 ∧
    valueOf (uiFinaliseAndLoadSettings sampleEnv halfStoredUI) 0 = 1 := by
  refine ⟨⟨_, rfl, rfl, by decide⟩, rfl, by decide, by decide⟩

/-- C16 (amended): the load step of `uiFinaliseAndLoadSettings` writes only the slots
of persisted settings whose name is a key of the store and regenerates only their
strings: a persisted setting whose key is missing keeps its entry and display string,
and keeps its value when no stored setting is bound to its slot; a slot that no stored
setting is bound to keeps its content; the entries from `settingsMetaStart` on are as
registered; and when there is no store to load, no slot and no persisted entry
changes. -/
theorem C16_load_frame (E : Env) (st : UI) (cfg : IniFile) (i : Nat) (s : Setting) :
    (st.iniFile = none →
      (uiFinaliseAndLoadSettings E st).mem = st.mem ∧
      ∀ k, k < st.settings.length →
        (uiFinaliseAndLoadSettings E st).settings[k]? = st.settings[k]?) ∧
    (st.iniFile = some cfg →
      (st.settings[i]? = some s → ini_sget cfg s.name = none →
        (uiFinaliseAndLoadSettings E st).settings[i]? = some s ∧
        ((∀ k p x, k < st.settings.length → s.valueIdx = some p →
            ¬ Writes cfg st.settings k p x) →
          valueOf (uiFinaliseAndLoadSettings E st) i = valueOf st i)) ∧
      (∀ p, (∀ k, k < st.settings.length → ∀ x, ¬ Writes cfg st.settings k p x) →
        (uiFinaliseAndLoadSettings E st).mem p = st.mem p) ∧
      (∀ j, st.settings.length ≤ j →
        (uiFinaliseAndLoadSettings E st).settings[j]? = (metaBoundary E st).settings[j]?)) ∧
    (uiFinaliseAndLoadSettings E st).settingsMetaStart = st.settings.length := by
  refine ⟨fun hnone => ?_, fun hcfg => ?_, (finalise_exit_entry E st).1⟩
  · rw [finalise_no_file E st hnone]
    exact ⟨metaBoundary_mem E st, fun k hk => metaBoundary_get E st k hk⟩
  · rw [finalise_loads E st cfg hcfg]
    have hmemp : ∀ p, (∀ k, k < st.settings.length → ∀ x, ¬ Writes cfg st.settings k p x) →
        (loadAll cfg st.settings.length (metaBoundary E st)).mem p = st.mem p := by
      intro p hp
      rw [loadAll_mem_untouched cfg st.settings.length (metaBoundary E st) p
        (fun k hk x hw => hp k hk x (writes_boundary E st cfg k p x hk hw))]
      rw [metaBoundary_mem]
    refine ⟨fun hs hv => ?_, hmemp, fun j hj => loadAll_get_ge cfg _ _ j hj⟩
    have hi := getElem?_lt _ _ _ hs
    have hkeep : (loadAll cfg st.settings.length (metaBoundary E st)).settings[i]? = some s :=
      loadAll_get_miss cfg st.settings.length (metaBoundary E st) i s
        ((metaBoundary_get E st i hi).trans hs) hv
    refine ⟨hkeep, fun hfree => ?_⟩
    simp only [valueOf, hkeep, hs]
    cases hp : s.valueIdx with
    | none => rfl
    | some p =>
      simp only [deref]
      exact hmemp p (fun k hk x => hfree k p x hk hp)

theorem C16_load_frame_witness :
    ((uiFinaliseAndLoadSettings sampleEnv (freshSample startUI)).mem = (freshSample startUI).mem ∧
      ∀ k, k < (freshSample startUI).settings.length →
        (uiFinaliseAndLoadSettings sampleEnv (freshSample startUI)).settings[k]?
          = (freshSample startUI).settings[k]?) ∧
    ((uiFinaliseAndLoadSettings sampleEnv storedScaleUI).settings[1]? = some vsyncEntry ∧
      valueOf (uiFinaliseAndLoadSettings sampleEnv storedScaleUI) 1
        = valueOf storedScaleUI 1) ∧
    (uiFinaliseAndLoadSettings sampleEnv storedScaleUI).mem 1 = storedScaleUI.mem 1 ∧
    (uiFinaliseAndLoadSettings sampleEnv storedScaleUI).settings[2]?
      = (metaBoundary sampleEnv storedScaleUI).settings[2]? :=
  have hnone := (C16_load_frame sampleEnv (freshSample startUI) [] 0 scaleEntry).1 rfl
  have h := (C16_load_frame sampleEnv storedScaleUI
    [IniLine.header "misc".toList, IniLine.keyValue "Scale".toList 2] 1 vsyncEntry).2.1 rfl
  have hfree : ∀ k, k < storedScaleUI.settings.length → ∀ x,
      ¬ Writes [IniLine.header "misc".toList, IniLine.keyValue "Scale".toList 2]
        storedScaleUI.settings k 1 x := by
    rintro k hk x ⟨a, w, h1, h2, h3, _⟩
    have hlen : storedScaleUI.settings.length = 2 := rfl
    have hk2 : k = 0 ∨ k = 1 := by omega
    rcases hk2 with e | e
    · subst e
      have hv : (storedScaleUI.settings[0]?).map Setting.valueIdx = some (some 0) := rfl
      rw [h1] at hv
      simp only [Option.map_some', Option.some.injEq] at hv
      rw [h2] at hv
      cases hv
    · subst e
      have hn : (storedScaleUI.settings[1]?).map Setting.name = some "VSync".toList := rfl
      rw [h1] at hn
      simp only [Option.map_some', Option.some.injEq] at hn
      rw [hn] at h3
      have hmiss : ini_sget [IniLine.header "misc".toList, IniLine.keyValue "Scale".toList 2]
          "VSync".toList = none := by decide
      rw [hmiss] at h3
      cases h3
  have hrow := h.1 rfl (by decide)
  ⟨hnone,
   ⟨hrow.1, hrow.2 (fun k p x hk hp => by
      have e : p = 1 := by
        have hq : vsyncEntry.valueIdx = some 1 := rfl
        rw [hq] at hp
        exact (Option.some.inj hp).symm
      subst e
      exact hfree k hk x)⟩,
   h.2.1 1 hfree, h.2.2 2 (by decide)⟩

end VbaUi
